import Mathlib

/-!
Verification development for the sandboxy session-execution core.

The definitions below are a shallow embedding of the Python sources:
  - src/sandboxy/core/mdl_parser.py   (template binder, validator)
  - src/sandboxy/core/runner.py       (synchronous executor)
  - src/sandboxy/core/async_runner.py (asynchronous interactive executor)
  - src/sandboxy/core/state.py        (data model)
  - src/sandboxy/agents/base.py       (agent action model)

Modelling conventions:
  - Python dicts with string keys become association lists `List (String × Val)`
    with the insertion-order update semantics of CPython implemented by
    `dictInsert`; lookups return the first (hence unique) binding.
  - Python numbers (int and float) become `ℚ`; exact float rounding is not
    modelled (no claim depends on it).
  - Python `eval`, `re.search` and the score-formula evaluator are foreign
    calls into the Python runtime; they are taken as function parameters so
    every theorem quantifies over their behaviour.
  - Recursive scanners translating the `re` patterns of mdl_parser.py carry a
    `Nat` fuel argument so that they are structurally recursive and reduce in
    the kernel.  Every scanner consumes at least one character per step, so a
    fuel equal to the input length is always sufficient; lemmas carry the
    `length ≤ fuel` side condition where generality is needed.
-/

namespace Sandboxy

/-- JSON-like runtime values (Python `Any` as it occurs in the core). -/
inductive Val where
  | vStr (s : String)
  | vNum (q : ℚ)
  | vBool (b : Bool)
  | vNull
  | vList (items : List Val)
  | vDict (entries : List (String × Val))
deriving Repr

/-- First-match association-list lookup (Python `dict.get`). -/
def lookupPairs : List (String × Val) → String → Option Val
  | [], _ => none
  | (k, v) :: rest, key => if k = key then some v else lookupPairs rest key

/-- CPython dict update: an existing key keeps its position, a new key is
appended (insertion order). -/
def dictInsert : List (String × Val) → String → Val → List (String × Val)
  | [], key, v => [(key, v)]
  | (k, w) :: rest, key, v =>
    if k = key then (k, v) :: rest else (k, w) :: dictInsert rest key v

/-- Python truthiness of a value (`not x`). -/
def pyFalsy : Val → Bool
  | .vStr s => s = ""
  | .vNum q => q = 0
  | .vBool b => !b
  | .vNull => true
  | .vList l => l.isEmpty
  | .vDict d => d.isEmpty

/-- Python `str()` of a value.  Exact float formatting and container reprs are
not modelled (no claim depends on them); strings, booleans, `None` and
integers follow CPython. -/
def pyStr : Val → String
  | .vStr s => s
  | .vBool true => "True"
  | .vBool false => "False"
  | .vNull => "None"
  | .vNum q => if q.den = 1 then toString q.num else toString q
  | .vList _ => "[list]"
  | .vDict _ => "[dict]"

mutual

/-- Structural boolean equality on values. -/
def valBeq : Val → Val → Bool
  | .vStr a, .vStr b => a == b
  | .vNum a, .vNum b => a == b
  | .vBool a, .vBool b => a == b
  | .vNull, .vNull => true
  | .vList a, .vList b => valListBeq a b
  | .vDict a, .vDict b => valDictBeq a b
  | _, _ => false

/-- Structural boolean equality on value lists. -/
def valListBeq : List Val → List Val → Bool
  | [], [] => true
  | a :: as, b :: bs => valBeq a b && valListBeq as bs
  | _, _ => false

/-- Structural boolean equality on value mappings. -/
def valDictBeq : List (String × Val) → List (String × Val) → Bool
  | [], [] => true
  | (k, v) :: as, (k2, v2) :: bs => k == k2 && valBeq v v2 && valDictBeq as bs
  | _, _ => false

end

mutual

/-- `valBeq` decides equality. -/
theorem valBeq_iff : ∀ (a b : Val), valBeq a b = true ↔ a = b
  | .vStr a, b => by cases b <;> simp [valBeq]
  | .vNum a, b => by cases b <;> simp [valBeq]
  | .vBool a, b => by cases b <;> simp [valBeq]
  | .vNull, b => by cases b <;> simp [valBeq]
  | .vList a, b => by
    cases b <;> simp [valBeq]
    exact valListBeq_iff a _
  | .vDict a, b => by
    cases b <;> simp [valBeq]
    exact valDictBeq_iff a _

/-- `valListBeq` decides equality. -/
theorem valListBeq_iff : ∀ (a b : List Val), valListBeq a b = true ↔ a = b
  | [], b => by cases b <;> simp [valListBeq]
  | a :: as, b => by
    cases b with
    | nil => simp [valListBeq]
    | cons c cs =>
      simp [valListBeq, Bool.and_eq_true, valBeq_iff a c, valListBeq_iff as cs]

/-- `valDictBeq` decides equality. -/
theorem valDictBeq_iff : ∀ (a b : List (String × Val)), valDictBeq a b = true ↔ a = b
  | [], b => by cases b <;> simp [valDictBeq]
  | (k, v) :: as, b => by
    cases b with
    | nil => simp [valDictBeq]
    | cons c cs =>
      cases c with
      | mk k2 v2 =>
        simp [valDictBeq, Bool.and_eq_true, valBeq_iff v v2, valDictBeq_iff as cs,
          and_assoc]

end

instance : DecidableEq Val := fun a b => decidable_of_iff _ (valBeq_iff a b)

/-- `\w` of the `re` module restricted to ASCII (module files are ASCII). -/
def isWordChar (c : Char) : Bool := c.isAlphanum || c = '_'

/-- Split a character list at the first occurrence of a (non-empty) pattern,
returning the part before the pattern and the part after it. -/
def splitAtFirst (pat : List Char) : List Char → Option (List Char × List Char)
  | [] => none
  | c :: rest =>
    if pat.isPrefixOf (c :: rest) then some ([], (c :: rest).drop pat.length)
    else (splitAtFirst pat rest).map fun p => (c :: p.1, p.2)

/-- The lazy group `(.+?)` followed by the literal `\x7d\x7d` of the regexes in
mdl_parser.py: shortest non-empty piece followed by a double closing brace;
returns the piece and the remainder after the braces. -/
def lazyCondSplit : List Char → Option (List Char × List Char)
  | [] => none
  | x :: rest => (splitAtFirst ['\x7d', '\x7d'] rest).map fun p => (x :: p.1, p.2)

/-- Literal `\x7b\x7b#if` opening an if-block. -/
def ifStartLit : List Char := ['\x7b', '\x7b', '#', 'i', 'f']

/-- Literal `\x7b\x7b/if\x7d\x7d` closing an if-block. -/
def closeIfLit : List Char := ['\x7b', '\x7b', '/', 'i', 'f', '\x7d', '\x7d']

/-- Literal `\x7b\x7belse if` (with the single space of the source pattern). -/
def elseIfLit : List Char := ['\x7b', '\x7b', 'e', 'l', 's', 'e', ' ', 'i', 'f']

/-- Literal `\x7b\x7belse\x7d\x7d`. -/
def elseLit : List Char := ['\x7b', '\x7b', 'e', 'l', 's', 'e', '\x7d', '\x7d']

/-- Matcher for the tail of `if_pattern` after its `\x7b\x7b#if` literal:
`\s+(.+?)\x7d\x7d(.*?)\x7b\x7b/if\x7d\x7d` (DOTALL).  Returns the raw
condition, the raw body, and the remainder after the closing literal.
NOTE: when the whitespace run is immediately followed by `\x7d\x7d`, the
Python engine can backtrack `\s+` and match a whitespace-only condition; this
scanner reports no match there.  No claim exercises that corner. -/
def ifBlockTail (l : List Char) : Option (String × String × List Char) :=
  let ws := l.takeWhile Char.isWhitespace
  let l1 := l.dropWhile Char.isWhitespace
  if ws.isEmpty then none
  else
    match lazyCondSplit l1 with
    | none => none
    | some (condChars, after) =>
      match splitAtFirst closeIfLit after with
      | none => none
      | some (bodyChars, rest) => some (String.mk condChars, String.mk bodyChars, rest)

/-- Tail of the first `re.split` alternative `\x7b\x7belse if\s+(.+?)\x7d\x7d`
after its literal. -/
def elseIfTail (l : List Char) : Option (String × List Char) :=
  let ws := l.takeWhile Char.isWhitespace
  let l1 := l.dropWhile Char.isWhitespace
  if ws.isEmpty then none
  else (lazyCondSplit l1).map fun p => (String.mk p.1, p.2)

/-- `re.split` over the body of an if-block (eval_if_block): returns the
segment before the first else-marker and the (captured condition, following
segment) pairs.  The fuel equals the input length at the outer call and is
always sufficient because every step consumes at least one character. -/
def splitElseGo : Nat → List Char → List Char × List (Option String × List Char)
  | 0, l => (l, [])
  | _ + 1, [] => ([], [])
  | fuel + 1, c :: rest =>
    if elseIfLit.isPrefixOf (c :: rest) then
      match elseIfTail ((c :: rest).drop 9) with
      | some (cond, after) =>
        let p := splitElseGo fuel after
        ([], (some cond, p.1) :: p.2)
      | none =>
        let p := splitElseGo fuel rest
        (c :: p.1, p.2)
    else if elseLit.isPrefixOf (c :: rest) then
      let p := splitElseGo fuel ((c :: rest).drop 8)
      ([], (none, p.1) :: p.2)
    else
      let p := splitElseGo fuel rest
      (c :: p.1, p.2)

/-- The branch-evaluation loop at the end of eval_if_block: first branch whose
condition is absent (plain else) or evaluates truthy wins; otherwise the block
contributes the empty string. -/
def evalBranches (ec : String → List (String × Val) → Bool)
    (vars : List (String × Val)) : List (Option String × List Char) → String
  | [] => ""
  | (none, content) :: _ => (String.mk content).trim
  | (some c, content) :: rest =>
    if ec c vars then (String.mk content).trim else evalBranches ec vars rest

/-- eval_if_block of mdl_parser.py: strip the matched condition, split the
body on else / else-if markers, evaluate branches in order. -/
def evalIfBlock (ec : String → List (String × Val) → Bool)
    (vars : List (String × Val)) (condRaw body : String) : String :=
  let split := splitElseGo body.toList.length body.toList
  let branches : List (Option String × List Char) :=
    (some condRaw.trim, split.1) :: split.2.map fun p => (p.1.map String.trim, p.2)
  evalBranches ec vars branches

/-- `if_pattern.sub(eval_if_block, text)`: leftmost non-overlapping matches of
the if-block pattern are replaced by the evaluated block; replacement output
is not rescanned. -/
def ifSubGo (ec : String → List (String × Val) → Bool)
    (vars : List (String × Val)) : Nat → List Char → List Char
  | 0, l => l
  | _ + 1, [] => []
  | fuel + 1, c :: rest =>
    if ifStartLit.isPrefixOf (c :: rest) then
      match ifBlockTail ((c :: rest).drop 5) with
      | some (cond, body, rest2) =>
        (evalIfBlock ec vars cond body).toList ++ ifSubGo ec vars fuel rest2
      | none => c :: ifSubGo ec vars fuel rest
    else c :: ifSubGo ec vars fuel rest

/-- `variables.get(var_name, "\x7b\x7bvar_name\x7d\x7d")` of replace_var: the
default is the six-character literal `\x7b\x7bvar_name\x7d\x7d` (the source
string lacks an f prefix), not the placeholder for the looked-up name. -/
def getVarOrDefault (vars : List (String × Val)) (name : String) : Val :=
  (lookupPairs vars name).getD (.vStr "\x7b\x7bvar_name\x7d\x7d")

/-- Anchored attempt of `var_pattern = \x7b\x7b(\w+)\x7d\x7d` at the current
position: on success returns the captured name and the remainder after the
match. -/
def varMatchAt : List Char → Option (String × List Char)
  | '\x7b' :: '\x7b' :: rest2 =>
    let w := rest2.takeWhile isWordChar
    let r3 := rest2.dropWhile isWordChar
    if w ≠ [] ∧ r3.take 2 = ['\x7d', '\x7d'] then some (String.mk w, r3.drop 2)
    else none
  | _ => none

/-- `var_pattern.sub(replace_var, text)` with
`var_pattern = \x7b\x7b(\w+)\x7d\x7d`: leftmost non-overlapping matches are
replaced by `str(variables.get(name, "\x7b\x7bvar_name\x7d\x7d"))`. -/
def varSubGo (vars : List (String × Val)) : Nat → List Char → List Char
  | 0, l => l
  | _ + 1, [] => []
  | fuel + 1, c :: rest =>
    match varMatchAt (c :: rest) with
    | some (name, tail) =>
      (pyStr (getVarOrDefault vars name)).toList ++ varSubGo vars fuel tail
    | none => c :: varSubGo vars fuel rest

/-- interpolate_template of mdl_parser.py: conditional blocks first, then
simple variable substitution.  `ec` is the foreign `_eval_condition`
(a Python `eval` returning False on any exception). -/
def interpolateTemplate (ec : String → List (String × Val) → Bool)
    (text : String) (vars : List (String × Val)) : String :=
  if text = "" then text
  else
    let t1 := String.mk (ifSubGo ec vars text.toList.length text.toList)
    String.mk (varSubGo vars t1.toList.length t1.toList)

/-- Scanner deciding whether the text contains a match of `var_pattern`;
mirrors the scan of `varSubGo`. -/
def hasVarPlaceholder : Nat → List Char → Bool
  | 0, _ => false
  | _ + 1, [] => false
  | fuel + 1, c :: rest =>
    match varMatchAt (c :: rest) with
    | some _ => true
    | none => hasVarPlaceholder fuel rest

/-- Scanner deciding whether the text contains a match of `if_pattern`;
mirrors the branch structure of `ifSubGo`. -/
def hasIfBlock : Nat → List Char → Bool
  | 0, _ => false
  | _ + 1, [] => false
  | fuel + 1, c :: rest =>
    if ifStartLit.isPrefixOf (c :: rest) then
      match ifBlockTail ((c :: rest).drop 5) with
      | some _ => true
      | none => hasIfBlock fuel rest
    else hasIfBlock fuel rest

/-- Names occurring as `\x7b\x7bname\x7d\x7d` placeholders in a text, in
match order (the matches var_pattern.sub would replace). -/
def collectVarNames : Nat → List Char → List String
  | 0, _ => []
  | _ + 1, [] => []
  | fuel + 1, c :: rest =>
    match varMatchAt (c :: rest) with
    | some (name, tail) => name :: collectVarNames fuel tail
    | none => collectVarNames fuel rest

/-- Names occurring as placeholders in a template string. -/
def templateVarNames (text : String) : List String :=
  collectVarNames text.toList.length text.toList

/-- A step of a module (state.py Step). -/
structure Step where
  id : String
  action : String
  params : List (String × Val) := []
  condition : Option String := none
deriving Repr, DecidableEq

/-- A tool reference in a module environment (state.py ToolRef). -/
structure ToolRef where
  name : String
  type : String
  description : String := ""
  config : List (String × Val) := []
deriving Repr, DecidableEq

/-- Environment configuration (state.py EnvConfig). -/
structure EnvConfig where
  sandbox_type : String := "local"
  tools : List ToolRef := []
  initial_state : List (String × Val) := []
deriving Repr, DecidableEq

/-- A configurable module variable (state.py ModuleVariable).  The slider and
select metadata (options, min, max, step) is carried but never read by the
embedded operations, exactly as in the core. -/
structure ModuleVariable where
  name : String
  label : String := ""
  description : String := ""
  type : String := "string"
  default : Val := .vNull
  min : Option ℚ := none
  max : Option ℚ := none
  step : Option ℚ := none
deriving Repr, DecidableEq

/-- An evaluation check (state.py EvaluationCheck). -/
structure EvaluationCheck where
  name : String
  kind : String
  target : Option String := none
  value : Val := .vNull
  expected : Bool := true
  pattern : Option String := none
  case_sensitive : Bool := false
  min : Option ℚ := none
  max : Option ℚ := none
  tool : Option String := none
  action : Option String := none
  key : Option String := none
  config : List (String × Val) := []
deriving Repr, DecidableEq

/-- Scoring configuration (state.py ScoringConfig). -/
structure ScoringConfig where
  formula : Option String := none
  weights : List (String × ℚ) := []
  normalize : Bool := false
  min_score : ℚ := 0
  max_score : ℚ := 100
deriving Repr, DecidableEq

/-- A complete module specification (state.py ModuleSpec). -/
structure ModuleSpec where
  id : String
  description : String := ""
  variableDecls : List ModuleVariable := []
  agent_config : List (String × Val) := []
  environment : EnvConfig
  steps : List Step := []
  branches : List (String × List Step) := []
  evaluation : List EvaluationCheck := []
  scoring : ScoringConfig := {}
deriving Repr, DecidableEq

/-- Anchored match of `^\x7b\x7b(\w+)\x7d\x7d$` against the trimmed string
(pure variable reference check of _interpolate_value). -/
def pureVarName (s : String) : Option String :=
  match s.trim.toList with
  | '\x7b' :: '\x7b' :: rest =>
    let w := rest.takeWhile isWordChar
    let r := rest.dropWhile isWordChar
    if w ≠ [] ∧ r = ['\x7d', '\x7d'] then some (String.mk w) else none
  | _ => none

mutual

/-- _interpolate_value of mdl_parser.py: typed substitution for whole-string
placeholders, string interpolation otherwise, recursion into containers. -/
def interpValue (ec : String → List (String × Val) → Bool)
    (vars : List (String × Val)) : Val → Val
  | .vStr s =>
    match pureVarName s with
    | some n =>
      match lookupPairs vars n with
      | some v => v
      | none => .vStr (interpolateTemplate ec s vars)
    | none => .vStr (interpolateTemplate ec s vars)
  | .vDict d => .vDict (interpDict ec vars d)
  | .vList l => .vList (interpList ec vars l)
  | v => v

/-- _interpolate_value over a list value. -/
def interpList (ec : String → List (String × Val) → Bool)
    (vars : List (String × Val)) : List Val → List Val
  | [] => []
  | v :: rest => interpValue ec vars v :: interpList ec vars rest

/-- _interpolate_value over a mapping value. -/
def interpDict (ec : String → List (String × Val) → Bool)
    (vars : List (String × Val)) : List (String × Val) → List (String × Val)
  | [] => []
  | (k, v) :: rest => (k, interpValue ec vars v) :: interpDict ec vars rest

end

/-- Variable resolution of apply_variables: declared defaults first, then the
caller bindings override. -/
def buildVarDict (decls : List ModuleVariable)
    (bindings : List (String × Val)) : List (String × Val) :=
  let base := decls.foldl (fun acc v => dictInsert acc v.name v.default) []
  bindings.foldl (fun acc p => dictInsert acc p.1 p.2) base

/-- The step loop of apply_variables: a step whose condition is truthy and
evaluates false is dropped; surviving steps get interpolated params and a
cleared condition. -/
def bindSteps (ec : String → List (String × Val) → Bool)
    (vd : List (String × Val)) : List Step → List Step
  | [] => []
  | s :: rest =>
    let keep :=
      match s.condition with
      | some c => if c = "" then true else ec c vd
      | none => true
    if keep then
      { id := s.id, action := s.action, params := interpDict ec vd s.params,
        condition := none } :: bindSteps ec vd rest
    else bindSteps ec vd rest

/-- apply_variables of mdl_parser.py.  Branches are passed through unchanged
(the source carries a TODO noting they are not interpolated). -/
def applyVariables (ec : String → List (String × Val) → Bool)
    (module : ModuleSpec) (bindings : List (String × Val)) : ModuleSpec :=
  let var_dict := buildVarDict module.variableDecls bindings
  let agent_config :=
    match lookupPairs module.agent_config "system_prompt" with
    | some (.vStr sp) =>
      dictInsert module.agent_config "system_prompt"
        (.vStr (interpolateTemplate ec sp var_dict))
    | _ => module.agent_config
  let new_tools := module.environment.tools.map fun t =>
    { name := t.name, type := t.type, description := t.description,
      config := interpDict ec var_dict t.config }
  let new_environment : EnvConfig :=
    { sandbox_type := module.environment.sandbox_type,
      tools := new_tools,
      initial_state := interpDict ec var_dict module.environment.initial_state }
  { id := module.id,
    description := module.description,
    variableDecls := module.variableDecls,
    agent_config := agent_config,
    environment := new_environment,
    steps := bindSteps ec var_dict module.steps,
    branches := module.branches,
    evaluation := module.evaluation,
    scoring := module.scoring }

/-- Branch lookup in a module (dict access on `branches`). -/
def lookupBranch : List (String × List Step) → String → Option (List Step)
  | [], _ => none
  | (k, v) :: rest, key => if k = key then some v else lookupBranch rest key

/-- The step-action whitelist of validate_module. -/
def validActions : List String :=
  ["inject_user", "await_user", "await_agent", "branch", "tool_call"]

/-- Step-action validation loop of validate_module. -/
def validateSteps (steps : List Step) : List String :=
  steps.filterMap fun s =>
    if validActions.contains s.action then none
    else some ("Step \x27" ++ s.id ++ "\x27 has invalid action: " ++ s.action)

/-- Branch-reference validation loop of validate_module. -/
def validateBranchRefs (module : ModuleSpec) : List String :=
  module.steps.filterMap fun s =>
    if s.action = "branch" then
      match lookupPairs s.params "branch_name" with
      | some v =>
        if pyFalsy v then none
        else
          match v with
          | .vStr b =>
            if (lookupBranch module.branches b).isSome then none
            else some ("Step \x27" ++ s.id ++ "\x27 references unknown branch: " ++ b)
          | other =>
            some ("Step \x27" ++ s.id ++ "\x27 references unknown branch: " ++ pyStr other)
      | none => none
    else none

/-- Check-kind validation loop of validate_module: the source recognizes only
`deterministic` and `llm`. -/
def validateKinds (evaluation : List EvaluationCheck) : List String :=
  evaluation.filterMap fun c =>
    if c.kind = "deterministic" ∨ c.kind = "llm" then none
    else some ("Evaluation \x27" ++ c.name ++ "\x27 has invalid kind: " ++ c.kind)

/-- validate_module of mdl_parser.py on an already-parsed module (file loading
and YAML parsing are I/O and are not embedded). -/
def validateModule (module : ModuleSpec) : List String :=
  validateSteps module.steps ++ validateBranchRefs module ++ validateKinds module.evaluation

/-- The per-session mutable environment mapping. -/
abbrev EnvState := List (String × Val)

/-- A tool call attached to an assistant message (state.py ToolCall). -/
structure ToolCall where
  id : String
  name : String
  arguments : String
deriving Repr, DecidableEq

/-- A conversation message (state.py Message). -/
structure Message where
  role : String
  content : String
  tool_name : Option String := none
  tool_call_id : Option String := none
  tool_calls : Option (List ToolCall) := none
deriving Repr, DecidableEq

/-- An action returned by an agent (agents/base.py AgentAction).  The pydantic
model restricts `type` to the three literals, so the embedding uses one
constructor per literal; the remaining fields default to `None` exactly as in
the model. -/
inductive AgentAction where
  | message (content : Option String)
  | toolCall (tool_name : Option String) (tool_action : Option String)
      (tool_args : Option (List (String × Val)))
  | stop
deriving Repr

/-- The `content` field of an AgentAction (default None). -/
def AgentAction.contentField : AgentAction → Option String
  | .message c => c
  | _ => none

/-- The `tool_name` field of an AgentAction (default None). -/
def AgentAction.toolNameField : AgentAction → Option String
  | .toolCall n _ _ => n
  | _ => none

/-- The `tool_action` field of an AgentAction (default None). -/
def AgentAction.toolActionField : AgentAction → Option String
  | .toolCall _ a _ => a
  | _ => none

/-- The `tool_args` field of an AgentAction (default None). -/
def AgentAction.toolArgsField : AgentAction → Option (List (String × Val))
  | .toolCall _ _ a => a
  | _ => none

/-- The `type` field of an AgentAction. -/
def AgentAction.typeField : AgentAction → String
  | .message _ => "message"
  | .toolCall _ _ _ => "tool_call"
  | .stop => "stop"

/-- An `Option String` as the Python value of an optional string field. -/
def optStrVal : Option String → Val
  | some s => .vStr s
  | none => .vNull

/-- Python attribute access on an AgentAction instance.  agents/base.py
declares exactly the fields `type`, `content`, `tool_name`, `tool_action`,
`tool_args`; pydantic raises AttributeError for any other name (the model
declares no `tool_call_id` field). -/
def AgentAction.pyAttr (a : AgentAction) (attr : String) : Except String Val :=
  if attr = "type" then .ok (.vStr a.typeField)
  else if attr = "content" then .ok (optStrVal a.contentField)
  else if attr = "tool_name" then .ok (optStrVal a.toolNameField)
  else if attr = "tool_action" then .ok (optStrVal a.toolActionField)
  else if attr = "tool_args" then
    .ok (match a.toolArgsField with | some d => .vDict d | none => .vNull)
  else .error ("AttributeError: \x27AgentAction\x27 object has no attribute \x27" ++ attr ++ "\x27")

/-- Result of a tool invocation (tools/base.py ToolResult). -/
structure ToolResult where
  success : Bool
  data : Val := .vNull
  error : Option String := none
deriving Repr, DecidableEq

/-- `ToolResult.model_dump()`: field order success, data, error. -/
def toolResultDump (r : ToolResult) : Val :=
  .vDict [("success", .vBool r.success), ("data", r.data), ("error", optStrVal r.error)]

/-- A live tool instance (tools/base.py Tool protocol).  `invoke` takes the
action name, the arguments and the current env_state and returns the result
together with the updated env_state (the source mutates env_state in place).
Tool construction (ToolLoader) performs imports and file I/O and is not
embedded; executors take the constructed name-to-tool mapping as a
parameter. -/
structure Tool where
  description : String := ""
  actions : Val := .vList []
  invoke : String → List (String × Val) → EnvState → ToolResult × EnvState

/-- An agent: its config id plus the `step` function producing the next
action from the history and the published tool schemas.  The embedding of an
agent as a function is what "deterministic agent" means in the claims. -/
structure Agent where
  id : String
  step : List Message → List Val → AgentAction

/-- _get_tool_schemas of both runners. -/
def toolSchemas (tools : List (String × Tool)) : List Val :=
  tools.map fun p =>
    .vDict [("name", .vStr p.1), ("description", .vStr p.2.description),
            ("actions", p.2.actions)]

/-- Association lookup in the tool mapping (`tool_name in self.tools`). -/
def lookupTool : List (String × Tool) → String → Option Tool
  | [], _ => none
  | (k, t) :: rest, key => if k = key then some t else lookupTool rest key

mutual

/-- `json.dumps` restricted to the shapes the runners serialize.  String
escaping and float formatting are not modelled (no claim depends on the
serialized text). -/
def jsonDumps : Val → String
  | .vStr s => "\x22" ++ s ++ "\x22"
  | .vNum q => if q.den = 1 then toString q.num else toString q
  | .vBool true => "true"
  | .vBool false => "false"
  | .vNull => "null"
  | .vList l => "[" ++ jsonDumpsList l ++ "]"
  | .vDict d => "\x7b" ++ jsonDumpsDict d ++ "\x7d"

/-- Comma-joined list elements for `jsonDumps`. -/
def jsonDumpsList : List Val → String
  | [] => ""
  | [v] => jsonDumps v
  | v :: rest => jsonDumps v ++ ", " ++ jsonDumpsList rest

/-- Comma-joined key-value pairs for `jsonDumps`. -/
def jsonDumpsDict : List (String × Val) → String
  | [] => ""
  | [(k, v)] => "\x22" ++ k ++ "\x22: " ++ jsonDumps v
  | (k, v) :: rest => "\x22" ++ k ++ "\x22: " ++ jsonDumps v ++ ", " ++ jsonDumpsDict rest

end

/-- An event recorded during module execution (runner.py RunEvent). -/
structure RunEvent where
  type : String
  payload : List (String × Val) := []
deriving Repr, DecidableEq

/-- Evaluation outcome (state.py EvaluationResult). -/
structure EvaluationResult where
  checks : List (String × Val) := []
  score : ℚ := 0
  num_events : Nat := 0
  status : String := "ok"
deriving Repr, DecidableEq

/-- Result of a synchronous run (runner.py RunResult). -/
structure RunResult where
  module_id : String
  agent_id : String
  events : List RunEvent := []
  evaluation : EvaluationResult := {}
deriving Repr, DecidableEq

/-- Mutable state of a synchronous Runner: `self.events`, `self.history`,
`self.env_state`. -/
structure RState where
  events : List RunEvent := []
  history : List Message := []
  env_state : EnvState := []
deriving Repr, DecidableEq

/-- Runner.__init__: fresh event log and history, env_state initialized from
`module.environment.initial_state.copy()`.  The copy is modelled here as a
value copy, which is observationally adequate for any single run; the source
copy is shallow (`dict.copy()` duplicates only the top-level mapping), and
the heap-level model below (`initHRState`, `runSyncH`) represents the
resulting sharing of nested containers between the ModuleSpec and every
Runner built from it, which becomes visible across several runs. -/
def initRState (module : ModuleSpec) : RState :=
  { events := [], history := [], env_state := module.environment.initial_state }

/-- `step.params.get(key, "")` for string parameters.  A non-string value
would fail pydantic validation downstream in the source; claims only use
string parameters. -/
def paramStr (params : List (String × Val)) (key : String) : String :=
  match lookupPairs params key with
  | some (.vStr s) => s
  | _ => ""

/-- `step.params.get("args", \x7b\x7d)` for the direct tool_call step. -/
def paramDict (params : List (String × Val)) (key : String) : List (String × Val) :=
  match lookupPairs params key with
  | some (.vDict d) => d
  | _ => []

/-- Runner._handle_inject_user: append a user message and a `user` event. -/
def handleInjectUser (step : Step) (st : RState) : RState :=
  let content := paramStr step.params "content"
  { st with
    history := st.history ++ [{ role := "user", content := content }],
    events := st.events ++
      [{ type := "user",
         payload := [("content", .vStr content), ("step_id", .vStr step.id)] }] }

/-- Runner._handle_tool_call: record the `tool_call` event, append the
assistant message carrying the call, invoke the tool (or record the
tool-not-found failure), record the `tool_result` event and the `tool`
message. -/
def handleToolCallSync (tools : List (String × Tool)) (action : AgentAction)
    (step : Step) (st : RState) : RState :=
  let tool_name := action.toolNameField.getD ""
  let tool_action := action.toolActionField.getD ""
  let tool_args := action.toolArgsField.getD []
  let tool_call_id :=
    "call_" ++ tool_name ++ "_" ++ tool_action ++ "_" ++ toString st.events.length
  let function_name := tool_name ++ "__" ++ tool_action
  let st1 : RState :=
    { st with
      events := st.events ++
        [{ type := "tool_call",
           payload := [("tool", .vStr tool_name), ("action", .vStr tool_action),
                       ("args", .vDict tool_args), ("step_id", .vStr step.id)] }] }
  let st2 : RState :=
    { st1 with
      history := st1.history ++
        [{ role := "assistant", content := "",
           tool_calls := some [{ id := tool_call_id, name := function_name,
                                 arguments := jsonDumps (.vDict tool_args) }] }] }
  match lookupTool tools tool_name with
  | some tool =>
    let invoked := tool.invoke tool_action tool_args st2.env_state
    let result := invoked.1
    { st2 with
      env_state := invoked.2,
      events := st2.events ++
        [{ type := "tool_result",
           payload := [("tool", .vStr tool_name), ("action", .vStr tool_action),
                       ("result", toolResultDump result)] }],
      history := st2.history ++
        [{ role := "tool",
           content := if result.success then jsonDumps result.data
                      else result.error.getD "",
           tool_name := some tool_name,
           tool_call_id := some tool_call_id }] }
  | none =>
    let error_msg := "Tool not found: " ++ tool_name
    { st2 with
      events := st2.events ++
        [{ type := "tool_result",
           payload := [("tool", .vStr tool_name), ("action", .vStr tool_action),
                       ("result", .vDict [("success", .vBool false),
                                          ("error", .vStr error_msg)])] }],
      history := st2.history ++
        [{ role := "tool", content := error_msg,
           tool_name := some tool_name, tool_call_id := some tool_call_id }] }

/-- Runner._handle_await_agent: the agent sub-loop of the synchronous
executor.  The numeric argument is the remaining tool-call budget
(`max_tool_calls - tool_call_count`, 10 at entry); a message or a stop
returns without consuming budget.  Returns the should-stop flag and the
updated state.  On stop the state is returned unchanged: the synchronous
source has no nudge retry and emits no agent_stop event. -/
def handleAwaitAgentSync (agent : Agent) (tools : List (String × Tool))
    (step : Step) : Nat → RState → Bool × RState
  | 0, st => (false, st)
  | budget + 1, st =>
    match agent.step st.history (toolSchemas tools) with
    | .message c =>
      let msg : Message := { role := "assistant", content := c.getD "" }
      (false,
        { st with
          history := st.history ++ [msg],
          events := st.events ++
            [{ type := "agent",
               payload := [("content", .vStr msg.content),
                           ("step_id", .vStr step.id)] }] })
    | .toolCall tn ta targs =>
      handleAwaitAgentSync agent tools step budget
        (handleToolCallSync tools (.toolCall tn ta targs) step st)
    | .stop => (true, st)

/-- Runner._handle_branch: always record the `branch` event; jump when the
(truthy) branch name is a key of the module branches. -/
def handleBranchSync (module : ModuleSpec) (step : Step) (st : RState) :
    RState × Option (List Step) :=
  let branch_name := lookupPairs step.params "branch_name"
  let st1 : RState :=
    { st with
      events := st.events ++
        [{ type := "branch",
           payload := [("branch", (branch_name.getD .vNull)),
                       ("step_id", .vStr step.id)] }] }
  match branch_name with
  | some (.vStr b) =>
    if b ≠ "" then
      match lookupBranch module.branches b with
      | some branchSteps => (st1, some branchSteps)
      | none => (st1, none)
    else (st1, none)
  | _ => (st1, none)

/-- `Message.model_dump()` (used in the deterministic-check context). -/
def msgDump (m : Message) : Val :=
  .vDict [("role", .vStr m.role), ("content", .vStr m.content),
          ("tool_name", optStrVal m.tool_name),
          ("tool_call_id", optStrVal m.tool_call_id),
          ("tool_calls",
            match m.tool_calls with
            | none => .vNull
            | some cs => .vList (cs.map fun c =>
                .vDict [("id", .vStr c.id), ("name", .vStr c.name),
                        ("arguments", .vStr c.arguments)]))]

/-- `RunEvent.model_dump()`. -/
def eventDump (e : RunEvent) : Val :=
  .vDict [("type", .vStr e.type), ("payload", .vDict e.payload)]

/-- The evaluation context handed to the sandboxed expression evaluator:
env_state, dumped history, dumped events. -/
def detContext (st : RState) : Val :=
  .vDict [("env_state", .vDict st.env_state),
          ("history", .vList (st.history.map msgDump)),
          ("events", .vList (st.events.map eventDump))]

/-- Runner._eval_deterministic.  `pyEval` is the foreign `_safe_eval`
(a restricted Python `eval`); an exception becomes an error record. -/
def evalDeterministicSync (pyEval : String → Val → Except String Val)
    (check : EvaluationCheck) (st : RState) : Val :=
  let expr := (lookupPairs check.config "expr").getD (.vStr "")
  if pyFalsy expr || valBeq expr (.vStr "TODO") then
    .vDict [("status", .vStr "skipped"), ("reason", .vStr "No expression defined")]
  else
    match expr with
    | .vStr e =>
      match pyEval e (detContext st) with
      | .ok v => v
      | .error m => .vDict [("status", .vStr "error"), ("error", .vStr m)]
    | _ => .vDict [("status", .vStr "error"),
                   ("error", .vStr "eval() arg 1 must be a string")]

/-- The check loop of Runner._evaluate, threading the checks mapping, the
score accumulator and the counted checks. -/
def evaluateSyncGo (pyEval : String → Val → Except String Val) (st : RState) :
    List EvaluationCheck → List (String × Val) → ℚ → Nat →
    List (String × Val) × ℚ × Nat
  | [], checks, total, num => (checks, total, num)
  | c :: rest, checks, total, num =>
    if c.kind = "deterministic" then
      let result := evalDeterministicSync pyEval c st
      let checks1 := dictInsert checks c.name result
      match result with
      | .vNum q => evaluateSyncGo pyEval st rest checks1 (total + q) (num + 1)
      | .vBool b =>
        evaluateSyncGo pyEval st rest checks1 (total + if b then 1 else 0) (num + 1)
      | _ => evaluateSyncGo pyEval st rest checks1 total num
    else if c.kind = "llm" then
      evaluateSyncGo pyEval st rest
        (dictInsert checks c.name
          (.vDict [("status", .vStr "skipped"),
                   ("reason", .vStr "LLM eval not implemented")]))
        total num
    else evaluateSyncGo pyEval st rest checks total num

/-- Runner._evaluate: deterministic and llm checks only; the score is the
plain average of the numeric and boolean deterministic results. -/
def evaluateSync (pyEval : String → Val → Except String Val)
    (evaluation : List EvaluationCheck) (st : RState) : EvaluationResult :=
  let acc := evaluateSyncGo pyEval st evaluation [] 0 0
  { checks := acc.1,
    score := if 0 < acc.2.2 then acc.2.1 / (acc.2.2 : ℚ) else 0,
    num_events := st.events.length,
    status := "ok" }

/-- The while loop of Runner.run.  `steps` is the active sequence (replaced
by a branch jump), the index advances linearly, and a should-stop from the
agent sub-loop breaks out of the whole loop.  The fuel bounds the number of
loop iterations (the source can loop forever through cyclic branch jumps);
`none` means the fuel was exhausted. -/
def runLoopSync (module : ModuleSpec) (agent : Agent)
    (tools : List (String × Tool)) :
    Nat → List Step → Nat → RState → Option RState
  | 0, _, _, _ => none
  | fuel + 1, steps, i, st =>
    if h : i < steps.length then
      let step := steps.get ⟨i, h⟩
      if step.action = "inject_user" then
        runLoopSync module agent tools fuel steps (i + 1) (handleInjectUser step st)
      else if step.action = "await_agent" then
        let r := handleAwaitAgentSync agent tools step 10 st
        if r.1 then some r.2
        else runLoopSync module agent tools fuel steps (i + 1) r.2
      else if step.action = "branch" then
        let r := handleBranchSync module step st
        match r.2 with
        | some newSteps => runLoopSync module agent tools fuel newSteps 0 r.1
        | none => runLoopSync module agent tools fuel steps (i + 1) r.1
      else
        runLoopSync module agent tools fuel steps (i + 1) st
    else some st

/-- Runner.run: drive the loop from the module steps and evaluate.  Note the
source handles only inject_user, await_agent and branch: any other action
(including tool_call and await_user) falls through the if/elif chain and is
skipped. -/
def runSync (module : ModuleSpec) (agent : Agent) (tools : List (String × Tool))
    (pyEval : String → Val → Except String Val) (fuel : Nat) : Option RunResult :=
  (runLoopSync module agent tools fuel module.steps 0 (initRState module)).map fun st =>
    { module_id := module.id,
      agent_id := agent.id,
      events := st.events,
      evaluation := evaluateSync pyEval module.evaluation st }

/-! ### Shared mutable containers and the shallow copy of Runner.__init__

Runner.__init__ sets `env_state = module.environment.initial_state.copy()`
(runner.py).  `dict.copy()` is shallow: it duplicates the top-level
key-to-value mapping, but a value that is itself a container (a list or a
dict) is not copied - the new mapping holds a reference to the very same
object, shared with the ModuleSpec and with every other Runner constructed
from it.  The value-level runner above erases that sharing and is adequate
only for a single run; across several runs of one ModuleSpec an in-place
mutation of a shared container during run 1 (a tool mutating env_state, as
the bundled mock tools do with `env_state.setdefault(...).append(...)`, or a
deterministic-check expression calling a mutating method through _safe_eval)
changes what run 2 reads.  The definitions below refine the synchronous
runner with container-valued env_state entries represented as references
into an explicit heap of mutable cells.  A cell holds its current contents
as a plain value: this one level of indirection captures exactly the objects
directly referenced from initial_state values, which is the sharing the
shallow copy creates. -/

/-- A heap location (the identity of a shared mutable container). -/
abbrev Loc := Nat

/-- An env_state entry at the heap level: either an immutable value or a
reference to a shared mutable cell. -/
inductive HVal where
  | imm (v : Val)
  | ref (l : Loc)
deriving Repr, DecidableEq

/-- The heap: each cell holds the current contents of one shared container. -/
abbrev Heap := List Val

/-- An env_state mapping whose values may reference shared cells. -/
abbrev HEnv := List (String × HVal)

/-- Read a heap value as the plain value an observer (such as the expression
evaluator) sees; a dangling reference reads as null. -/
def resolveHVal (heap : Heap) : HVal → Val
  | .imm v => v
  | .ref l => (heap.get? l).getD .vNull

/-- Read a heap env_state as the plain mapping the observers see. -/
def resolveHEnv (heap : Heap) (env : HEnv) : List (String × Val) :=
  env.map fun p => (p.1, resolveHVal heap p.2)

/-- A live tool instance at the heap level: `invoke` may rebind top-level
env_state keys (the returned `HEnv`) and mutate shared containers in place
(the returned `Heap`), both sanctioned by the tool contract (the source
mutates env_state directly). -/
structure HTool where
  description : String := ""
  actions : Val := .vList []
  invoke : String → List (String × Val) → HEnv → Heap → ToolResult × HEnv × Heap

/-- _get_tool_schemas over heap-level tools. -/
def toolSchemasH (tools : List (String × HTool)) : List Val :=
  tools.map fun p =>
    .vDict [("name", .vStr p.1), ("description", .vStr p.2.description),
            ("actions", p.2.actions)]

/-- Association lookup in the heap-level tool mapping. -/
def lookupToolH : List (String × HTool) → String → Option HTool
  | [], _ => none
  | (k, t) :: rest, key => if k = key then some t else lookupToolH rest key

/-- Mutable state of a synchronous Runner at the heap level. -/
structure HRState where
  events : List RunEvent := []
  history : List Message := []
  env_state : HEnv := []
deriving Repr, DecidableEq

/-- Runner.__init__ at the heap level: `initial_state.copy()` duplicates the
top-level association list (value semantics gives that for free), while
`ref` entries keep pointing into the heap shared with the ModuleSpec and
with any other Runner built from it. -/
def initHRState (initial : HEnv) : HRState :=
  { events := [], history := [], env_state := initial }

/-- Runner._handle_inject_user at the heap level (env_state untouched). -/
def handleInjectUserH (step : Step) (st : HRState) : HRState :=
  let content := paramStr step.params "content"
  { st with
    history := st.history ++ [{ role := "user", content := content }],
    events := st.events ++
      [{ type := "user",
         payload := [("content", .vStr content), ("step_id", .vStr step.id)] }] }

/-- Runner._handle_tool_call at the heap level: as `handleToolCallSync`, with
the tool invocation additionally reading and writing the shared heap. -/
def handleToolCallSyncH (tools : List (String × HTool)) (action : AgentAction)
    (step : Step) (st : HRState) (heap : Heap) : HRState × Heap :=
  let tool_name := action.toolNameField.getD ""
  let tool_action := action.toolActionField.getD ""
  let tool_args := action.toolArgsField.getD []
  let tool_call_id :=
    "call_" ++ tool_name ++ "_" ++ tool_action ++ "_" ++ toString st.events.length
  let function_name := tool_name ++ "__" ++ tool_action
  let st1 : HRState :=
    { st with
      events := st.events ++
        [{ type := "tool_call",
           payload := [("tool", .vStr tool_name), ("action", .vStr tool_action),
                       ("args", .vDict tool_args), ("step_id", .vStr step.id)] }] }
  let st2 : HRState :=
    { st1 with
      history := st1.history ++
        [{ role := "assistant", content := "",
           tool_calls := some [{ id := tool_call_id, name := function_name,
                                 arguments := jsonDumps (.vDict tool_args) }] }] }
  match lookupToolH tools tool_name with
  | some tool =>
    let invoked := tool.invoke tool_action tool_args st2.env_state heap
    let result := invoked.1
    ({ st2 with
       env_state := invoked.2.1,
       events := st2.events ++
         [{ type := "tool_result",
            payload := [("tool", .vStr tool_name), ("action", .vStr tool_action),
                        ("result", toolResultDump result)] }],
       history := st2.history ++
         [{ role := "tool",
            content := if result.success then jsonDumps result.data
                       else result.error.getD "",
            tool_name := some tool_name,
            tool_call_id := some tool_call_id }] }, invoked.2.2)
  | none =>
    let error_msg := "Tool not found: " ++ tool_name
    ({ st2 with
       events := st2.events ++
         [{ type := "tool_result",
            payload := [("tool", .vStr tool_name), ("action", .vStr tool_action),
                        ("result", .vDict [("success", .vBool false),
                                           ("error", .vStr error_msg)])] }],
       history := st2.history ++
         [{ role := "tool", content := error_msg,
            tool_name := some tool_name, tool_call_id := some tool_call_id }] }, heap)

/-- Runner._handle_await_agent at the heap level. -/
def handleAwaitAgentSyncH (agent : Agent) (tools : List (String × HTool))
    (step : Step) : Nat → HRState → Heap → Bool × HRState × Heap
  | 0, st, heap => (false, st, heap)
  | budget + 1, st, heap =>
    match agent.step st.history (toolSchemasH tools) with
    | .message c =>
      let msg : Message := { role := "assistant", content := c.getD "" }
      (false,
        { st with
          history := st.history ++ [msg],
          events := st.events ++
            [{ type := "agent",
               payload := [("content", .vStr msg.content),
                           ("step_id", .vStr step.id)] }] }, heap)
    | .toolCall tn ta targs =>
      let r := handleToolCallSyncH tools (.toolCall tn ta targs) step st heap
      handleAwaitAgentSyncH agent tools step budget r.1 r.2
    | .stop => (true, st, heap)

/-- Runner._handle_branch at the heap level (env_state and heap untouched). -/
def handleBranchSyncH (module : ModuleSpec) (step : Step) (st : HRState) :
    HRState × Option (List Step) :=
  let branch_name := lookupPairs step.params "branch_name"
  let st1 : HRState :=
    { st with
      events := st.events ++
        [{ type := "branch",
           payload := [("branch", (branch_name.getD .vNull)),
                       ("step_id", .vStr step.id)] }] }
  match branch_name with
  | some (.vStr b) =>
    if b ≠ "" then
      match lookupBranch module.branches b with
      | some branchSteps => (st1, some branchSteps)
      | none => (st1, none)
    else (st1, none)
  | _ => (st1, none)

/-- The evaluation context at the heap level: the evaluator sees the live
contents of the shared containers. -/
def detContextH (heap : Heap) (st : HRState) : Val :=
  .vDict [("env_state", .vDict (resolveHEnv heap st.env_state)),
          ("history", .vList (st.history.map msgDump)),
          ("events", .vList (st.events.map eventDump))]

/-- Runner._eval_deterministic at the heap level.  The foreign `_safe_eval`
(a restricted Python `eval`) receives the live env_state, so the evaluated
expression may call mutating methods on shared containers: the evaluator
parameter threads the heap. -/
def evalDeterministicSyncH (pe : String → Val → Heap → Except String Val × Heap)
    (check : EvaluationCheck) (st : HRState) (heap : Heap) : Val × Heap :=
  let expr := (lookupPairs check.config "expr").getD (.vStr "")
  if pyFalsy expr || valBeq expr (.vStr "TODO") then
    (.vDict [("status", .vStr "skipped"), ("reason", .vStr "No expression defined")],
     heap)
  else
    match expr with
    | .vStr e =>
      let r := pe e (detContextH heap st) heap
      (match r.1 with
       | .ok v => v
       | .error m => .vDict [("status", .vStr "error"), ("error", .vStr m)], r.2)
    | _ => (.vDict [("status", .vStr "error"),
                    ("error", .vStr "eval() arg 1 must be a string")], heap)

/-- The check loop of Runner._evaluate at the heap level: a mutation made by
one check expression is seen by the later ones (the checks all read the same
live env_state). -/
def evaluateSyncGoH (pe : String → Val → Heap → Except String Val × Heap)
    (st : HRState) :
    List EvaluationCheck → List (String × Val) → ℚ → Nat → Heap →
    List (String × Val) × ℚ × Nat × Heap
  | [], checks, total, num, heap => (checks, total, num, heap)
  | c :: rest, checks, total, num, heap =>
    if c.kind = "deterministic" then
      let r := evalDeterministicSyncH pe c st heap
      let checks1 := dictInsert checks c.name r.1
      match r.1 with
      | .vNum q => evaluateSyncGoH pe st rest checks1 (total + q) (num + 1) r.2
      | .vBool b =>
        evaluateSyncGoH pe st rest checks1 (total + if b then 1 else 0) (num + 1) r.2
      | _ => evaluateSyncGoH pe st rest checks1 total num r.2
    else if c.kind = "llm" then
      evaluateSyncGoH pe st rest
        (dictInsert checks c.name
          (.vDict [("status", .vStr "skipped"),
                   ("reason", .vStr "LLM eval not implemented")]))
        total num heap
    else evaluateSyncGoH pe st rest checks total num heap

/-- Runner._evaluate at the heap level. -/
def evaluateSyncH (pe : String → Val → Heap → Except String Val × Heap)
    (evaluation : List EvaluationCheck) (st : HRState) (heap : Heap) :
    EvaluationResult × Heap :=
  let acc := evaluateSyncGoH pe st evaluation [] 0 0 heap
  ({ checks := acc.1,
     score := if 0 < acc.2.2.1 then acc.2.1 / (acc.2.2.1 : ℚ) else 0,
     num_events := st.events.length,
     status := "ok" }, acc.2.2.2)

/-- The while loop of Runner.run at the heap level. -/
def runLoopSyncH (module : ModuleSpec) (agent : Agent)
    (tools : List (String × HTool)) :
    Nat → List Step → Nat → HRState → Heap → Option (HRState × Heap)
  | 0, _, _, _, _ => none
  | fuel + 1, steps, i, st, heap =>
    if h : i < steps.length then
      let step := steps.get ⟨i, h⟩
      if step.action = "inject_user" then
        runLoopSyncH module agent tools fuel steps (i + 1)
          (handleInjectUserH step st) heap
      else if step.action = "await_agent" then
        let r := handleAwaitAgentSyncH agent tools step 10 st heap
        if r.1 then some r.2
        else runLoopSyncH module agent tools fuel steps (i + 1) r.2.1 r.2.2
      else if step.action = "branch" then
        let r := handleBranchSyncH module step st
        match r.2 with
        | some newSteps => runLoopSyncH module agent tools fuel newSteps 0 r.1 heap
        | none => runLoopSyncH module agent tools fuel steps (i + 1) r.1 heap
      else
        runLoopSyncH module agent tools fuel steps (i + 1) st heap
    else some (st, heap)

/-- One full Runner construction and run at the heap level: `initial` is the
top-level mapping of `module.environment.initial_state` (its container values
as references) and `heap` holds the current contents of those shared
containers.  The run returns its result together with the heap as it leaves
it, which is what the next Runner built from the same ModuleSpec starts
from. -/
def runSyncH (module : ModuleSpec) (agent : Agent) (tools : List (String × HTool))
    (pe : String → Val → Heap → Except String Val × Heap) (fuel : Nat)
    (initial : HEnv) (heap : Heap) : Option (RunResult × Heap) :=
  (runLoopSyncH module agent tools fuel module.steps 0 (initHRState initial) heap).map
    fun r =>
      let ev := evaluateSyncH pe module.evaluation r.1 r.2
      ({ module_id := module.id,
         agent_id := agent.id,
         events := r.1.events,
         evaluation := ev.1 }, ev.2)

/-- The heap a completed run leaves behind (unchanged when the run exhausts
its fuel). -/
def heapAfterRunSync (module : ModuleSpec) (agent : Agent)
    (tools : List (String × HTool))
    (pe : String → Val → Heap → Except String Val × Heap) (fuel : Nat)
    (initial : HEnv) (heap : Heap) : Heap :=
  match runSyncH module agent tools pe fuel initial heap with
  | some r => r.2
  | none => heap

/-- A tool that never mutates a shared container in place (it may still
rebind top-level env_state keys, which the shallow copy isolates per run). -/
def heapPreservingTool (t : HTool) : Prop :=
  ∀ (a : String) (args : List (String × Val)) (env : HEnv) (heap : Heap),
    (t.invoke a args env heap).2.2 = heap

/-- An expression evaluator that never mutates a shared container in place. -/
def heapPreservingEval
    (pe : String → Val → Heap → Except String Val × Heap) : Prop :=
  ∀ (e : String) (ctx : Val) (heap : Heap), (pe e ctx heap).2 = heap

/-- Python `==` on runtime values: structural equality plus the numeric
equality of booleans and numbers (`True == 1`).  Cross-type numeric equality
inside nested containers is not modelled (no claim exercises it). -/
def pyEq (a b : Val) : Bool :=
  match a, b with
  | .vBool x, .vNum q => (if x then (1 : ℚ) else 0) == q
  | .vNum q, .vBool x => q == (if x then (1 : ℚ) else 0)
  | _, _ => valBeq a b

/-- Python `in` on strings (substring containment). -/
def strContains (t p : String) : Bool :=
  p.toList.isEmpty || (splitAtFirst p.toList t.toList).isSome

/-- An optional number as a Python value. -/
def optQVal : Option ℚ → Val
  | some q => .vNum q
  | none => .vNull

/-- AsyncRunner._get_target_text. -/
def getTargetText (hist : List Message) (target : String) : String :=
  if target = "agent_messages" then
    String.intercalate " " ((hist.filter fun m => m.role == "assistant").map fun m => m.content)
  else if target = "user_messages" then
    String.intercalate " " ((hist.filter fun m => m.role == "user").map fun m => m.content)
  else if target = "all_messages" then
    String.intercalate " " (hist.map fun m => m.content)
  else if target = "last_agent_message" then
    ((hist.reverse.find? fun m => m.role == "assistant").map fun m => m.content).getD ""
  else if target = "last_user_message" then
    ((hist.reverse.find? fun m => m.role == "user").map fun m => m.content).getD ""
  else ""

/-- Length of the list AsyncRunner._get_target_list returns (the caller only
takes `len` of it). -/
def getTargetListLen (hist : List Message) (events : List RunEvent)
    (target : String) : Nat :=
  if target = "agent_messages" then (hist.filter fun m => m.role == "assistant").length
  else if target = "user_messages" then (hist.filter fun m => m.role == "user").length
  else if target = "all_messages" then hist.length
  else if target = "tool_calls" then (events.filter fun e => e.type == "tool_call").length
  else 0

/-- An error record as produced by the `except` clause of _run_check. -/
def errDict (msg : String) : Val :=
  .vDict [("status", .vStr "error"), ("error", .vStr msg)]

/-- AsyncRunner._check_contains. -/
def checkContains (hist : List Message) (check : EvaluationCheck) : Val :=
  let target := check.target.getD "agent_messages"
  let valueRaw : Val := if pyFalsy check.value then .vStr "" else check.value
  let text := getTargetText hist target
  match valueRaw with
  | .vStr v =>
    let text2 := if check.case_sensitive then text else text.toLower
    let v2 := if check.case_sensitive then v else v.toLower
    let found := strContains text2 v2
    .vDict [("passed", .vBool (found == check.expected)),
            ("found", .vBool found),
            ("expected", .vBool check.expected),
            ("searched_for", check.value),
            ("in", .vStr target)]
  | _ => errDict "str operation on a non-string check value"

/-- AsyncRunner._check_regex.  `reSearch` is the foreign `re.search` tried
with the given pattern, text and ignore-case flag; a compilation failure is an
exception. -/
def checkRegex (reSearch : String → String → Bool → Except String Bool)
    (hist : List Message) (check : EvaluationCheck) : Val :=
  let target := check.target.getD "agent_messages"
  let pattern := check.pattern.getD ""
  let text := getTargetText hist target
  match reSearch pattern text (!check.case_sensitive) with
  | .ok m =>
    .vDict [("passed", .vBool (m == check.expected)),
            ("matched", .vBool m),
            ("expected", .vBool check.expected),
            ("pattern", .vStr pattern),
            ("in", .vStr target)]
  | .error e => errDict e

/-- AsyncRunner._check_count. -/
def checkCount (hist : List Message) (events : List RunEvent)
    (check : EvaluationCheck) : Val :=
  let target := check.target.getD "agent_messages"
  let count := getTargetListLen hist events target
  let passed :=
    (match check.min with | some m => decide ((m : ℚ) ≤ (count : ℚ)) | none => true) &&
    (match check.max with | some m => decide ((count : ℚ) ≤ (m : ℚ)) | none => true)
  .vDict [("passed", .vBool passed),
          ("count", .vNum (count : ℚ)),
          ("min", optQVal check.min),
          ("max", optQVal check.max),
          ("target", .vStr target)]

/-- AsyncRunner._check_tool_called. -/
def checkToolCalled (events : List RunEvent) (check : EvaluationCheck) : Val :=
  let called := events.any fun e =>
    e.type == "tool_call" &&
    pyEq ((lookupPairs e.payload "tool").getD .vNull) (optStrVal check.tool) &&
    (check.action.isNone ||
      pyEq ((lookupPairs e.payload "action").getD .vNull) (optStrVal check.action))
  .vDict [("passed", .vBool (called == check.expected)),
          ("called", .vBool called),
          ("expected", .vBool check.expected),
          ("tool", optStrVal check.tool),
          ("action", optStrVal check.action)]

/-- AsyncRunner._check_equals. -/
def checkEquals (hist : List Message) (env : EnvState)
    (check : EvaluationCheck) : Val :=
  let target := check.target.getD ""
  let actual : Val :=
    if target.startsWith "env." then (lookupPairs env (target.drop 4)).getD .vNull
    else .vStr (getTargetText hist target)
  .vDict [("passed", .vBool (pyEq actual check.value)),
          ("actual", actual),
          ("expected", check.value),
          ("target", .vStr target)]

/-- AsyncRunner._get_nested_value over runtime values (the `hasattr` branch
for live objects is unreachable on env_state contents). -/
def getNestedValue : Val → List String → Val
  | obj, [] => obj
  | .vNull, _ :: _ => .vNull
  | .vDict d, k :: rest => getNestedValue ((lookupPairs d k).getD .vNull) rest
  | _, _ :: _ => .vNull

/-- AsyncRunner._check_env_state. -/
def checkEnvState (env : EnvState) (check : EvaluationCheck) : Val :=
  let key := check.key.getD ""
  let actual : Val :=
    if key.contains '.' then getNestedValue (.vDict env) (key.splitOn ".")
    else (lookupPairs env key).getD .vNull
  .vDict [("passed", .vBool (pyEq actual check.value)),
          ("actual", actual),
          ("expected", check.value),
          ("key", .vStr key)]

/-- Sum of decimal digits as a natural number. -/
def digitsToNat (l : List Char) : Nat :=
  l.foldl (fun acc c => acc * 10 + (c.toNat - '0'.toNat)) 0

/-- Python `float()` on the string captured by `-?[\d.]+`: at most one dot,
at least one digit; otherwise a ValueError (None here). -/
def parseFloatQ (s : List Char) : Option ℚ :=
  let core := match s with | '-' :: r => r | r => r
  let neg := match s with | '-' :: _ => true | _ => false
  let parts := (String.mk core).splitOn "."
  match parts with
  | [i] =>
    if i.toList ≠ [] ∧ i.toList.all Char.isDigit then
      some ((if neg then -1 else 1) * (digitsToNat i.toList : ℚ))
    else none
  | [i, f] =>
    if (i.toList ≠ [] ∨ f.toList ≠ []) ∧ i.toList.all Char.isDigit ∧
        f.toList.all Char.isDigit then
      some ((if neg then -1 else 1) *
        ((digitsToNat i.toList : ℚ) + (digitsToNat f.toList : ℚ) / ((10 : ℚ) ^ f.toList.length)))
    else none
  | _ => none

/-- AsyncRunner._evaluate_pass_condition: parse `([<>=!]+)\s*(-?[\d.]+)` at
the start of the condition; no match or an unknown operator defaults to pass;
an unparsable number is a ValueError (modelled as `.error`). -/
def evaluatePassCondition (value : ℚ) (condition : String) : Except String Bool :=
  let l := condition.toList
  let ops := l.takeWhile fun c => c = '<' || c = '>' || c = '=' || c = '!'
  if ops.isEmpty then .ok true
  else
    let rest := (l.dropWhile fun c => c = '<' || c = '>' || c = '=' || c = '!').dropWhile
      Char.isWhitespace
    let numChars :=
      match rest with
      | '-' :: r => '-' :: r.takeWhile fun c => c.isDigit || c = '.'
      | r => r.takeWhile fun c => c.isDigit || c = '.'
    let numEmpty := match numChars with | [] => true | ['-'] => true | _ => false
    if numEmpty then .ok true
    else
      match parseFloatQ numChars with
      | none => .error "ValueError: could not convert string to float"
      | some threshold =>
        let op := String.mk ops
        if op = ">=" then .ok (decide (threshold ≤ value))
        else if op = "<=" then .ok (decide (value ≤ threshold))
        else if op = ">" then .ok (decide (threshold < value))
        else if op = "<" then .ok (decide (value < threshold))
        else if op = "==" ∨ op = "=" then .ok (value == threshold)
        else if op = "!=" ∨ op = "<>" then .ok (value != threshold)
        else .ok true

/-- The evaluation context of the deterministic checks, from its pieces. -/
def detContextOf (env : EnvState) (hist : List Message)
    (events : List RunEvent) : Val :=
  .vDict [("env_state", .vDict env),
          ("history", .vList (hist.map msgDump)),
          ("events", .vList (events.map eventDump))]

/-- The numeric reading `isinstance(result, (int, float))` (booleans are
Python ints). -/
def numVal : Val → Option ℚ
  | .vNum q => some q
  | .vBool b => some (if b then 1 else 0)
  | _ => none

/-- AsyncRunner._check_deterministic: evaluate the expression, then apply the
optional pass_if condition to a numeric result, wrap a boolean result as
`passed`, and return a bare `value` record otherwise. -/
def checkDeterministicAsync (pyEval : String → Val → Except String Val)
    (env : EnvState) (hist : List Message) (events : List RunEvent)
    (check : EvaluationCheck) : Val :=
  let expr := (lookupPairs check.config "expr").getD (.vStr "")
  if pyFalsy expr || valBeq expr (.vStr "TODO") then
    .vDict [("status", .vStr "skipped"), ("reason", .vStr "No expression defined")]
  else
    match expr with
    | .vStr e =>
      match pyEval e (detContextOf env hist events) with
      | .error m => errDict m
      | .ok v =>
        let pass_if := lookupPairs check.config "pass_if"
        match pass_if with
        | some pc =>
          if !pyFalsy pc then
            match numVal v with
            | some q =>
              match pc with
              | .vStr cond =>
                match evaluatePassCondition q cond with
                | .ok passed =>
                  .vDict [("passed", .vBool passed), ("value", v), ("condition", .vStr cond)]
                | .error m => errDict m
              | _ => errDict "TypeError: expected string or bytes-like object"
            | none =>
              match v with
              | .vBool b => .vDict [("passed", .vBool b)]
              | _ => .vDict [("value", v)]
          else
            match v with
            | .vBool b => .vDict [("passed", .vBool b)]
            | _ => .vDict [("value", v)]
        | none =>
          match v with
          | .vBool b => .vDict [("passed", .vBool b)]
          | _ => .vDict [("value", v)]
    | _ => errDict "eval() arg 1 must be a string"

/-- AsyncRunner._run_check: dispatch on the check kind. -/
def runCheck (pyEval : String → Val → Except String Val)
    (reSearch : String → String → Bool → Except String Bool)
    (env : EnvState) (hist : List Message) (events : List RunEvent)
    (check : EvaluationCheck) : Val :=
  if check.kind = "contains" then checkContains hist check
  else if check.kind = "regex" then checkRegex reSearch hist check
  else if check.kind = "count" then checkCount hist events check
  else if check.kind = "tool_called" then checkToolCalled events check
  else if check.kind = "equals" then checkEquals hist env check
  else if check.kind = "env_state" then checkEnvState env check
  else if check.kind = "deterministic" then
    checkDeterministicAsync pyEval env hist events check
  else if check.kind = "llm" then
    .vDict [("status", .vStr "skipped"), ("reason", .vStr "LLM eval not implemented")]
  else errDict ("Unknown check kind: " ++ check.kind)

/-- The numeric extraction loop at the top of AsyncRunner._compute_score:
raw numbers (and booleans, which are ints) directly, records via `passed`
(only the boolean constants count) or a numeric `value`. -/
def extractNumeric : Val → Option ℚ
  | .vNum q => some q
  | .vBool b => some (if b then 1 else 0)
  | .vDict d =>
    match lookupPairs d "passed" with
    | some (.vBool true) => some 1
    | some (.vBool false) => some 0
    | _ =>
      match lookupPairs d "value" with
      | some (.vNum q) => some q
      | some (.vBool b) => some (if b then 1 else 0)
      | _ => none
  | _ => none

/-- `check_values` of _compute_score: the checks contributing a number, in
insertion order. -/
def extractCheckValues : List (String × Val) → List (String × ℚ)
  | [] => []
  | (n, r) :: rest =>
    match extractNumeric r with
    | some q => (n, q) :: extractCheckValues rest
    | none => extractCheckValues rest

/-- `weights.get(name, 1.0)`. -/
def lookupWeight : List (String × ℚ) → String → ℚ
  | [], _ => 1
  | (k, w) :: rest, key => if k = key then w else lookupWeight rest key

/-- AsyncRunner._weighted_average. -/
def weightedAverage (values : List (String × ℚ)) (weights : List (String × ℚ)) : ℚ :=
  if values.isEmpty then 0
  else
    let total := (values.map fun p => p.2 * lookupWeight weights p.1).sum
    let total_weight := (values.map fun p => lookupWeight weights p.1).sum
    if 0 < total_weight then total / total_weight else 0

/-- AsyncRunner._compute_score.  `evalFormula` is the foreign
_eval_score_formula (a restricted Python `eval` over the check values and the
env_state, coerced to float). -/
def computeScore (evalFormula : String → List (String × ℚ) → EnvState → Except String ℚ)
    (scoring : ScoringConfig) (env : EnvState) (checks : List (String × Val)) : ℚ :=
  let check_values := extractCheckValues checks
  let score :=
    match scoring.formula with
    | some f =>
      if f = "" then weightedAverage check_values scoring.weights
      else
        match evalFormula f check_values env with
        | .ok q => q
        | .error _ => weightedAverage check_values scoring.weights
    | none => weightedAverage check_values scoring.weights
  if scoring.normalize ∧ scoring.max_score ≠ scoring.min_score then
    let s := (score - scoring.min_score) / (scoring.max_score - scoring.min_score)
    max 0 (min 1 s)
  else score

/-- The check loop of AsyncRunner._evaluate. -/
def runChecksGo (pyEval : String → Val → Except String Val)
    (reSearch : String → String → Bool → Except String Bool)
    (env : EnvState) (hist : List Message) (events : List RunEvent) :
    List EvaluationCheck → List (String × Val) → List (String × Val)
  | [], checks => checks
  | c :: rest, checks =>
    runChecksGo pyEval reSearch env hist events rest
      (dictInsert checks c.name (runCheck pyEval reSearch env hist events c))

/-- Session states (state.py SessionState). -/
inductive SessionState where
  | idle
  | running
  | awaiting_user
  | awaiting_agent
  | paused
  | completed
  | error
deriving Repr, DecidableEq

/-- Mutable state of an AsyncRunner: events, history, env_state, the session
state, the step index, and whether the `_retry_after_tool` attribute is set
(absent = false). -/
structure AState where
  events : List RunEvent := []
  history : List Message := []
  env_state : EnvState := []
  state : SessionState := .idle
  idx : Nat := 0
  retry_after_tool : Bool := false
deriving Repr, DecidableEq

/-- AsyncRunner.__init__. -/
def initAState (module : ModuleSpec) : AState :=
  { events := [], history := [], env_state := module.environment.initial_state,
    state := .idle, idx := 0, retry_after_tool := false }

/-- AsyncRunner._handle_inject_user: the scripted user event (payload carries
`scripted: True`).  The event returned is appended by the run loop. -/
def asyncInjectUser (step : Step) (st : AState) : RunEvent × AState :=
  let content := paramStr step.params "content"
  let ev : RunEvent :=
    { type := "user",
      payload := [("content", .vStr content), ("step_id", .vStr step.id),
                  ("scripted", .vBool true)] }
  (ev, { st with history := st.history ++ [{ role := "user", content := content }] })

/-- AsyncRunner._handle_await_user with an input supplied by the script: the
`awaiting_input` event, then the user message and its event (payload carries
`scripted: False`).  The real-time timeout path is not modelled; the scripted
input plays the role of the provided input. -/
def asyncAwaitUser (step : Step) (input : String) (st : AState) :
    List RunEvent × AState :=
  let prompt := paramStr step.params "prompt"
  let timeout := (lookupPairs step.params "timeout").getD .vNull
  let ev1 : RunEvent :=
    { type := "awaiting_input",
      payload := [("prompt", .vStr prompt), ("step_id", .vStr step.id),
                  ("timeout", timeout)] }
  let ev2 : RunEvent :=
    { type := "user",
      payload := [("content", .vStr input), ("step_id", .vStr step.id),
                  ("scripted", .vBool false)] }
  ([ev1, ev2],
    { st with
      history := st.history ++ [{ role := "user", content := input }],
      state := .running })

/-- AsyncRunner._handle_tool_call.  The first statement after reading the
plain fields is `action.tool_call_id or ...`; AgentAction declares no
`tool_call_id` field, so this attribute read raises before any event is
yielded or any state is mutated.  The remainder of the body mirrors the
source and is reachable only if the attribute read were to succeed. -/
def asyncHandleToolCall (tools : List (String × Tool)) (action : AgentAction)
    (step : Step) (st : AState) : Except String (AState × List RunEvent) := do
  let tool_name := action.toolNameField.getD ""
  let tool_action := action.toolActionField.getD ""
  let tool_args := action.toolArgsField.getD []
  let tcid ← action.pyAttr "tool_call_id"
  let tool_call_id :=
    if pyFalsy tcid then
      "call_" ++ tool_name ++ "_" ++ tool_action ++ "_" ++ toString st.events.length
    else pyStr tcid
  let function_name := tool_name ++ "__" ++ tool_action
  let ev1 : RunEvent :=
    { type := "tool_call",
      payload := [("tool", .vStr tool_name), ("action", .vStr tool_action),
                  ("args", .vDict tool_args), ("step_id", .vStr step.id)] }
  let st1 : AState :=
    { st with
      events := st.events ++ [ev1],
      history := st.history ++
        [{ role := "assistant", content := "",
           tool_calls := some [{ id := tool_call_id, name := function_name,
                                 arguments := jsonDumps (.vDict tool_args) }] }] }
  match lookupTool tools tool_name with
  | some tool =>
    let invoked := tool.invoke tool_action tool_args st1.env_state
    let result := invoked.1
    let ev2 : RunEvent :=
      { type := "tool_result",
        payload := [("tool", .vStr tool_name), ("action", .vStr tool_action),
                    ("result", toolResultDump result)] }
    .ok
      ({ st1 with
         env_state := invoked.2,
         events := st1.events ++ [ev2],
         history := st1.history ++
           [{ role := "tool",
              content := if result.success then jsonDumps result.data
                         else result.error.getD "",
              tool_name := some tool_name,
              tool_call_id := some tool_call_id }] },
       [ev1, ev2])
  | none =>
    let error_msg := "Tool not found: " ++ tool_name
    let ev2 : RunEvent :=
      { type := "tool_result",
        payload := [("tool", .vStr tool_name), ("action", .vStr tool_action),
                    ("result", .vDict [("success", .vBool false),
                                       ("error", .vStr error_msg)])] }
    .ok
      ({ st1 with
         events := st1.events ++ [ev2],
         history := st1.history ++
           [{ role := "tool", content := error_msg,
              tool_name := some tool_name, tool_call_id := some tool_call_id }] },
       [ev1, ev2])

/-- The synthetic nudge inserted on a first stop after tool calls. -/
def nudgeMessage : Message :=
  { role := "user",
    content := "[System: Please respond to the customer based on the information you just retrieved.]" }

/-- AsyncRunner._handle_await_agent.  `count` is `tool_call_count`,
`maxCalls` is `max_tool_calls` (10).  On stop: if tool calls happened and the
`_retry_after_tool` attribute is not set, set it, append the nudge to history
and retry; otherwise clear the attribute, emit `agent_stop` and return.  An
exception from the tool-call handler aborts the generator, carrying the state
at the raise.  The fuel only bounds the iteration count; `2 * maxCalls + 2`
iterations always suffice (every iteration either consumes tool-call budget
or flips the retry flag or returns). -/
def asyncAwaitAgentGo (agent : Agent) (tools : List (String × Tool)) (step : Step)
    (maxCalls : Nat) :
    Nat → Nat → AState → Except (String × AState) (AState × List RunEvent)
  | 0, _, st => .ok (st, [])
  | fuel + 1, count, st =>
    if count < maxCalls then
      match agent.step st.history (toolSchemas tools) with
      | .message c =>
        let msg : Message := { role := "assistant", content := c.getD "" }
        let ev : RunEvent :=
          { type := "agent",
            payload := [("content", .vStr msg.content), ("step_id", .vStr step.id)] }
        .ok ({ st with history := st.history ++ [msg], events := st.events ++ [ev] },
             [ev])
      | .toolCall tn ta targs =>
        match asyncHandleToolCall tools (.toolCall tn ta targs) step st with
        | .error e => .error (e, st)
        | .ok (st1, evs) =>
          match asyncAwaitAgentGo agent tools step maxCalls fuel (count + 1) st1 with
          | .error e => .error e
          | .ok (st2, evs2) => .ok (st2, evs ++ evs2)
      | .stop =>
        if 0 < count ∧ st.retry_after_tool = false then
          asyncAwaitAgentGo agent tools step maxCalls fuel count
            { st with retry_after_tool := true,
                      history := st.history ++ [nudgeMessage] }
        else
          let ev : RunEvent := { type := "agent_stop",
                                 payload := [("step_id", .vStr step.id)] }
          .ok ({ st with retry_after_tool := false, events := st.events ++ [ev] },
               [ev])
    else .ok (st, [])

/-- AsyncRunner._handle_direct_tool_call: the direct tool_call step.  Emits
the `tool_call` event (payload carries `direct: True`) and the `tool_result`
event; the message history is untouched. -/
def asyncDirectToolCall (tools : List (String × Tool)) (step : Step)
    (st : AState) : List RunEvent × AState :=
  let tool_name := paramStr step.params "tool"
  let tool_action := paramStr step.params "action"
  let tool_args := paramDict step.params "args"
  let ev1 : RunEvent :=
    { type := "tool_call",
      payload := [("tool", .vStr tool_name), ("action", .vStr tool_action),
                  ("args", .vDict tool_args), ("step_id", .vStr step.id),
                  ("direct", .vBool true)] }
  let st1 : AState := { st with events := st.events ++ [ev1] }
  match lookupTool tools tool_name with
  | some tool =>
    let invoked := tool.invoke tool_action tool_args st1.env_state
    let ev2 : RunEvent :=
      { type := "tool_result",
        payload := [("tool", .vStr tool_name), ("action", .vStr tool_action),
                    ("result", toolResultDump invoked.1)] }
    ([ev1, ev2], { st1 with env_state := invoked.2, events := st1.events ++ [ev2] })
  | none =>
    let ev2 : RunEvent :=
      { type := "tool_result",
        payload := [("tool", .vStr tool_name), ("action", .vStr tool_action),
                    ("result", .vDict [("success", .vBool false),
                                       ("error", .vStr ("Tool not found: " ++ tool_name))])] }
    ([ev1, ev2], { st1 with events := st1.events ++ [ev2] })

/-- AsyncRunner._handle_branch. -/
def asyncBranch (module : ModuleSpec) (step : Step) (st : AState) :
    RunEvent × AState × Option (List Step) :=
  let branch_name := lookupPairs step.params "branch_name"
  let ev : RunEvent :=
    { type := "branch",
      payload := [("branch", branch_name.getD .vNull), ("step_id", .vStr step.id)] }
  let st1 : AState := { st with events := st.events ++ [ev] }
  match branch_name with
  | some (.vStr b) =>
    if b ≠ "" then
      match lookupBranch module.branches b with
      | some branchSteps => (ev, st1, some branchSteps)
      | none => (ev, st1, none)
    else (ev, st1, none)
  | _ => (ev, st1, none)

/-- AsyncRunner._evaluate: run every check, then compose the score from the
scoring config. -/
def evaluateAsync (pyEval : String → Val → Except String Val)
    (reSearch : String → String → Bool → Except String Bool)
    (evalFormula : String → List (String × ℚ) → EnvState → Except String ℚ)
    (module : ModuleSpec) (st : AState) : EvaluationResult :=
  let checks := runChecksGo pyEval reSearch st.env_state st.history st.events
    module.evaluation []
  { checks := checks,
    score := computeScore evalFormula module.scoring st.env_state checks,
    num_events := st.events.length,
    status := "ok" }

/-- The `completed` event (yielded, not appended to the event log). -/
def completedEvent (er : EvaluationResult) (st : AState) : RunEvent :=
  { type := "completed",
    payload := [("evaluation",
                  .vDict [("checks", .vDict er.checks), ("score", .vNum er.score),
                          ("num_events", .vNum (er.num_events : ℚ)),
                          ("status", .vStr er.status)]),
                ("num_events", .vNum (st.events.length : ℚ))] }

/-- The `error` event yielded by the except clause of AsyncRunner.run. -/
def errorEvent (msg : String) : RunEvent :=
  { type := "error", payload := [("message", .vStr msg)] }

/-- The while loop of AsyncRunner.run.  Returns the events yielded from this
point on together with the final runner state; `none` when the fuel runs out
(the source can loop forever through cyclic branch jumps) or when an
await_user step suspends with no scripted input left.  Events yielded by the
step handlers are appended to the event log as in the source; the final
`completed` or `error` event is yielded without being appended.  An
exception inside a handler is caught by the run-level `except`, which yields
one error event and moves the session to the error state. -/
def runLoopAsync (module : ModuleSpec) (agent : Agent)
    (tools : List (String × Tool))
    (pyEval : String → Val → Except String Val)
    (reSearch : String → String → Bool → Except String Bool)
    (evalFormula : String → List (String × ℚ) → EnvState → Except String ℚ) :
    Nat → List Step → List String → AState → Option (List RunEvent × AState)
  | 0, _, _, _ => none
  | fuel + 1, steps, inputs, st =>
    if h : st.idx < steps.length then
      let step := steps.get ⟨st.idx, h⟩
      if step.action = "inject_user" then
        let r := asyncInjectUser step st
        (runLoopAsync module agent tools pyEval reSearch evalFormula fuel steps inputs
            { r.2 with events := r.2.events ++ [r.1], idx := r.2.idx + 1 }).map
          fun out => (r.1 :: out.1, out.2)
      else if step.action = "await_user" then
        match inputs with
        | [] => none
        | input :: rest =>
          let r := asyncAwaitUser step input st
          (runLoopAsync module agent tools pyEval reSearch evalFormula fuel steps rest
              { r.2 with events := r.2.events ++ r.1, idx := r.2.idx + 1 }).map
            fun out => (r.1 ++ out.1, out.2)
      else if step.action = "await_agent" then
        match asyncAwaitAgentGo agent tools step 10 (2 * 10 + 2) 0
            { st with state := .awaiting_agent } with
        | .error e => some ([errorEvent e.1], { e.2 with state := .error })
        | .ok (st1, evs) =>
          (runLoopAsync module agent tools pyEval reSearch evalFormula fuel steps inputs
              { st1 with state := .running, idx := st1.idx + 1 }).map
            fun out => (evs ++ out.1, out.2)
      else if step.action = "branch" then
        let r := asyncBranch module step st
        match r.2.2 with
        | some newSteps =>
          (runLoopAsync module agent tools pyEval reSearch evalFormula fuel newSteps
              inputs { r.2.1 with idx := 0 }).map fun out => (r.1 :: out.1, out.2)
        | none =>
          (runLoopAsync module agent tools pyEval reSearch evalFormula fuel steps
              inputs { r.2.1 with idx := r.2.1.idx + 1 }).map
            fun out => (r.1 :: out.1, out.2)
      else if step.action = "tool_call" then
        let r := asyncDirectToolCall tools step st
        (runLoopAsync module agent tools pyEval reSearch evalFormula fuel steps inputs
            { r.2 with idx := r.2.idx + 1 }).map fun out => (r.1 ++ out.1, out.2)
      else
        runLoopAsync module agent tools pyEval reSearch evalFormula fuel steps inputs
          { st with idx := st.idx + 1 }
    else
      let er := evaluateAsync pyEval reSearch evalFormula module st
      some ([completedEvent er st], { st with state := .completed })

/-- AsyncRunner.run: set the running state and drive the loop over the module
steps with the scripted user inputs. -/
def runAsync (module : ModuleSpec) (agent : Agent) (tools : List (String × Tool))
    (pyEval : String → Val → Except String Val)
    (reSearch : String → String → Bool → Except String Bool)
    (evalFormula : String → List (String × ℚ) → EnvState → Except String ℚ)
    (fuel : Nat) (inputs : List String) : Option (List RunEvent × AState) :=
  runLoopAsync module agent tools pyEval reSearch evalFormula fuel module.steps inputs
    { initAState module with state := .running }

/-! Concrete stand-ins for the foreign Python calls, used by concrete
instances below.  The general theorems quantify over these parameters. -/

/-- A condition evaluator that deems every condition false. -/
def evalCondStub : String → List (String × Val) → Bool := fun _ _ => false

/-- An expression evaluator that always raises. -/
def pyEvalStub : String → Val → Except String Val := fun _ _ => .error "eval stub"

/-- A regex searcher that never matches. -/
def reSearchStub : String → String → Bool → Except String Bool := fun _ _ _ => .ok false

/-- A formula evaluator that always raises. -/
def evalFormulaStub : String → List (String × ℚ) → EnvState → Except String ℚ :=
  fun _ _ _ => .error "formula stub"

/-- A stub agent that always stops. -/
def stubStopAgent : Agent := { id := "stub/stop", step := fun _ _ => .stop }

/-- A stub agent that always answers with the same message. -/
def stubMessageAgent : Agent := { id := "stub/msg", step := fun _ _ => .message (some "ok") }

/-- A stub agent that always requests the same tool call. -/
def stubToolCallAgent : Agent :=
  { id := "stub/tc", step := fun _ _ => .toolCall (some "t") (some "a") (some []) }

/-- A probe tool whose only effect is to set the env key `hit`. -/
def probeTool : Tool :=
  { description := "probe",
    invoke := fun _ _ env => ({ success := true }, dictInsert env "hit" (.vBool true)) }

/-! Claim C5: conditions in the bound module. -/

/-- Every step produced by the bind loop has its condition cleared. -/
theorem bindSteps_condition_none (ec : String → List (String × Val) → Bool)
    (vd : List (String × Val)) :
    ∀ (l : List Step) (s : Step), s ∈ bindSteps ec vd l → s.condition = none := by
  intro l
  induction l with
  | nil => intro s hs; simp [bindSteps] at hs
  | cons a rest ih =>
    intro s hs
    rw [bindSteps] at hs
    split at hs
    · rcases List.mem_cons.mp hs with h | h
      · rw [h]
      · exact ih s h
    · exact ih s hs

/-- A module exhibiting that apply_variables passes branches through
unchanged: one branch whose only step carries a condition. -/
def c5Module : ModuleSpec :=
  { id := "c5/branch-cond",
    environment := {},
    steps := [{ id := "top", action := "inject_user" }],
    branches := [("b", [{ id := "s", action := "inject_user",
                          condition := some "True" }])] }

/-- C5 counterexample: the claim says every step of every branch sequence of
the bound module has its condition cleared; binding `c5Module` returns the
branch step with its condition `some "True"` intact (apply_variables returns
`branches` unchanged), so the claim is false at this input. -/
theorem c5_counterexample :
    ((applyVariables evalCondStub c5Module []).branches.map
      fun p => p.2.map fun s => s.condition) = [[some "True"]] := by
  decide

/-- C5 (corrected): in the module returned by apply_variables every top-level
step has its condition cleared, but the branch sequences are returned exactly
as they were in the input module (they are not interpolated and their steps
may retain conditions). -/
theorem c5_amended (ec : String → List (String × Val) → Bool)
    (module : ModuleSpec) (bindings : List (String × Val)) :
    (∀ s ∈ (applyVariables ec module bindings).steps, s.condition = none) ∧
    (applyVariables ec module bindings).branches = module.branches := by
  constructor
  · intro s hs
    exact bindSteps_condition_none ec (buildVarDict module.variableDecls bindings)
      module.steps s hs
  · rfl

/-- A module with one unconditioned step, instantiating `c5_amended`. -/
def c5WitnessModule : ModuleSpec :=
  { id := "c5/witness",
    environment := {},
    steps := [{ id := "s", action := "inject_user" }] }

/-- C5 witness: the amended theorem applied to a concrete bound step. -/
theorem c5_witness :
    ({ id := "s", action := "inject_user", params := [], condition := none } : Step) ∈
      (applyVariables evalCondStub c5WitnessModule []).steps ∧
    ({ id := "s", action := "inject_user", params := [], condition := none } : Step).condition
      = none :=
  ⟨by decide,
   (c5_amended evalCondStub c5WitnessModule []).1 _ (by decide)⟩

/-! Claim C6: unresolved placeholders. -/

/-- C6 (code side of the code_bug): interpolating the template consisting of
the single placeholder for `foo` with an empty variable map yields the
six-character literal placeholder text `var_name`, not the original
placeholder for `foo`: the default argument in replace_var is a plain string
missing its f prefix, so every unresolved placeholder collapses to the same
literal `\x7b\x7bvar_name\x7d\x7d`. -/
theorem c6_unresolved_placeholder :
    interpolateTemplate evalCondStub "\x7b\x7bfoo\x7d\x7d" [] = "\x7b\x7bvar_name\x7d\x7d" ∧
    interpolateTemplate evalCondStub "\x7b\x7bfoo\x7d\x7d" [] ≠ "\x7b\x7bfoo\x7d\x7d" := by
  constructor
  · decide
  · decide

/-! Claim C7: validation of check kinds. -/

/-- The check kinds of the data model (state.py CheckKind). -/
def recognizedCheckKinds : List String :=
  ["contains", "regex", "count", "tool_called", "equals", "env_state",
   "deterministic", "llm"]

/-- A validation message reported by the check-kind loop (and by no other
loop): it starts with the word `Evaluation` and a quote. -/
def isKindErrorMsg (e : String) : Bool :=
  List.isPrefixOf "Evaluation \x27".toList e.toList

/-- A list is a boolean prefix of itself extended by anything. -/
theorem isPrefixOf_append_self (l t : List Char) : List.isPrefixOf l (l ++ t) = true := by
  induction l with
  | nil => simp [List.isPrefixOf]
  | cons c rest ih => simp [List.isPrefixOf, ih]

/-- Step-action and branch-reference messages are not kind messages (they
start with the word `Step`). -/
theorem stepMsg_not_kindErr (a m b : String) :
    isKindErrorMsg ("Step \x27" ++ a ++ m ++ b) = false := rfl

/-- Kind messages are kind messages. -/
theorem kindMsg_is_kindErr (a b : String) :
    isKindErrorMsg ("Evaluation \x27" ++ a ++ "\x27 has invalid kind: " ++ b) = true := by
  show List.isPrefixOf "Evaluation \x27".toList
    ((("Evaluation \x27".toList ++ a.toList) ++ "\x27 has invalid kind: ".toList) ++
      b.toList) = true
  rw [List.append_assoc, List.append_assoc]
  exact isPrefixOf_append_self _ _

/-- The step-action loop contributes no kind message. -/
theorem countP_validateSteps (steps : List Step) :
    (validateSteps steps).countP isKindErrorMsg = 0 := by
  rw [List.countP_eq_zero]
  intro e he
  rw [validateSteps, List.mem_filterMap] at he
  obtain ⟨s, _, hf⟩ := he
  by_cases h : validActions.contains s.action
  · rw [if_pos h] at hf
    exact absurd hf (by simp)
  · rw [if_neg h, Option.some.injEq] at hf
    simp [← hf, stepMsg_not_kindErr]

/-- The branch-reference loop contributes no kind message. -/
theorem countP_validateBranchRefs (module : ModuleSpec) :
    (validateBranchRefs module).countP isKindErrorMsg = 0 := by
  rw [List.countP_eq_zero]
  intro e he
  rw [validateBranchRefs, List.mem_filterMap] at he
  obtain ⟨s, _, hf⟩ := he
  split at hf
  · split at hf
    · split at hf
      · exact absurd hf (by simp)
      · split at hf
        · split at hf
          · exact absurd hf (by simp)
          · rw [Option.some.injEq] at hf
            simp [← hf, stepMsg_not_kindErr]
        · rw [Option.some.injEq] at hf
          simp [← hf, stepMsg_not_kindErr]
    · exact absurd hf (by simp)
  · exact absurd hf (by simp)

/-- The kind loop contributes one message per check whose kind is neither
deterministic nor llm. -/
theorem countP_validateKinds (evaluation : List EvaluationCheck) :
    (validateKinds evaluation).countP isKindErrorMsg =
      evaluation.countP fun c => !(c.kind == "deterministic" || c.kind == "llm") := by
  induction evaluation with
  | nil => rfl
  | cons c rest ih =>
    have ih2 := ih
    rw [validateKinds] at ih2
    by_cases h : c.kind = "deterministic" ∨ c.kind = "llm"
    · have hb : (!(c.kind == "deterministic" || c.kind == "llm")) = false := by
        rcases h with h | h <;> simp [h]
      rw [validateKinds, List.filterMap_cons, if_pos h, List.countP_cons, hb]
      simpa using ih2
    · have hb : (!(c.kind == "deterministic" || c.kind == "llm")) = true := by
        push_neg at h
        simp [h.1, h.2]
      rw [validateKinds, List.filterMap_cons, if_neg h, List.countP_cons,
        List.countP_cons, hb, kindMsg_is_kindErr]
      simp [ih2]

/-- A module whose single check uses the kind `contains` of the data model. -/
def c7Module : ModuleSpec :=
  { id := "c7/contains",
    environment := {},
    evaluation := [{ name := "c1", kind := "contains" }] }

/-- C7 counterexample: `contains` is a recognized kind of the data model, yet
validate reports an error for it — the validator recognizes only
`deterministic` and `llm` — so the claimed equivalence (error iff kind not in
the data-model list) is false at this input. -/
theorem c7_counterexample :
    recognizedCheckKinds.contains "contains" = true ∧
    validateModule c7Module = ["Evaluation \x27c1\x27 has invalid kind: contains"] := by
  constructor
  · decide
  · decide

/-- C7 (corrected): validate reports a kind error exactly for the checks whose
kind is neither `deterministic` nor `llm`; counted over the whole report, the
kind-error messages are in bijection with those checks.  In particular a
module whose checks all use kinds outside that two-element set (for example
the other six kinds of the data model) is reported, and one whose checks all
use `deterministic` or `llm` yields no kind-related message. -/
theorem c7_amended (module : ModuleSpec) :
    (validateModule module).countP isKindErrorMsg =
      module.evaluation.countP fun c => !(c.kind == "deterministic" || c.kind == "llm") := by
  rw [validateModule, List.countP_append, List.countP_append,
    countP_validateSteps, countP_validateBranchRefs, countP_validateKinds]
  omega

/-! Claim C10: idempotence of interpolation. -/

/-- A text with no var-pattern match is unchanged by variable substitution. -/
theorem varSubGo_id (vars : List (String × Val)) :
    ∀ (fuel : Nat) (l : List Char),
      hasVarPlaceholder fuel l = false → varSubGo vars fuel l = l := by
  intro fuel
  induction fuel with
  | zero => intro l _; rfl
  | succ n ih =>
    intro l h
    cases l with
    | nil => rfl
    | cons c rest =>
      rw [hasVarPlaceholder] at h
      rw [varSubGo]
      cases hm : varMatchAt (c :: rest) with
      | some p =>
        rw [hm] at h
        exact absurd h (by simp)
      | none =>
        rw [hm] at h
        simp only [hm]
        rw [ih rest h]

/-- A text with no if-pattern match is unchanged by conditional-block
processing. -/
theorem ifSubGo_id (ec : String → List (String × Val) → Bool)
    (vars : List (String × Val)) :
    ∀ (fuel : Nat) (l : List Char),
      hasIfBlock fuel l = false → ifSubGo ec vars fuel l = l := by
  intro fuel
  induction fuel with
  | zero => intro l _; rfl
  | succ n ih =>
    intro l h
    cases l with
    | nil => rfl
    | cons c rest =>
      rw [hasIfBlock] at h
      rw [ifSubGo]
      by_cases hp : ifStartLit.isPrefixOf (c :: rest)
      · rw [if_pos hp] at h ⊢
        cases hm : ifBlockTail ((c :: rest).drop 5) with
        | some p =>
          rw [hm] at h
          exact absurd h (by simp)
        | none =>
          rw [hm] at h
          simp only [hm]
          rw [ih rest h]
      · rw [if_neg hp] at h ⊢
        rw [ih rest h]

/-- A string without template matches is a fixed point of
interpolate_template. -/
theorem interpolateTemplate_id (ec : String → List (String × Val) → Bool)
    (vars : List (String × Val)) (s : String)
    (h1 : hasIfBlock s.toList.length s.toList = false)
    (h2 : hasVarPlaceholder s.toList.length s.toList = false) :
    interpolateTemplate ec s vars = s := by
  unfold interpolateTemplate
  by_cases hs : s = ""
  · rw [if_pos hs]
  · rw [if_neg hs]
    show String.mk (varSubGo vars
        (String.mk (ifSubGo ec vars s.toList.length s.toList)).toList.length
        (String.mk (ifSubGo ec vars s.toList.length s.toList)).toList) = s
    rw [ifSubGo_id ec vars _ _ h1]
    show String.mk (varSubGo vars s.toList.length s.toList) = s
    rw [varSubGo_id vars _ _ h2]
    rfl

/-- The variable map of the C10 counterexample: it binds `a` (the only
placeholder of the template) as well as `b`. -/
def c10Vars : List (String × Val) :=
  [("a", .vStr "\x7b\x7bb\x7d\x7d"), ("b", .vStr "x")]

/-- C10 counterexample: the template holding the single placeholder for `a`
with a map binding every name occurring in it (it binds both `a` and `b`).
The first pass substitutes the value of `a`, which itself reads as the
placeholder for `b`, so the second pass substitutes again: interpolation is
not idempotent at this input, refuting the claim. -/
theorem c10_counterexample :
    ((templateVarNames "\x7b\x7ba\x7d\x7d").all fun n => (lookupPairs c10Vars n).isSome) = true ∧
    interpolateTemplate evalCondStub
        (interpolateTemplate evalCondStub "\x7b\x7ba\x7d\x7d" c10Vars) c10Vars ≠
      interpolateTemplate evalCondStub "\x7b\x7ba\x7d\x7d" c10Vars := by
  constructor
  · decide
  · decide

/-- C10 (corrected): interpolation is idempotent whenever the output of the
first pass contains no template match (no conditional block and no
`\x7b\x7bname\x7d\x7d` occurrence).  Binding every placeholder of the input is
not sufficient, because substituted values (or splicing) can introduce new
placeholders. -/
theorem c10_amended (ec : String → List (String × Val) → Bool)
    (vars : List (String × Val)) (t : String)
    (h1 : hasIfBlock (interpolateTemplate ec t vars).toList.length
        (interpolateTemplate ec t vars).toList = false)
    (h2 : hasVarPlaceholder (interpolateTemplate ec t vars).toList.length
        (interpolateTemplate ec t vars).toList = false) :
    interpolateTemplate ec (interpolateTemplate ec t vars) vars =
      interpolateTemplate ec t vars :=
  interpolateTemplate_id ec vars _ h1 h2

/-- C10 witness: a fully resolved first pass, on which the amended theorem
applies. -/
theorem c10_witness :
    hasIfBlock
        (interpolateTemplate evalCondStub "\x7b\x7ba\x7d\x7d" [("a", .vStr "x")]).toList.length
        (interpolateTemplate evalCondStub "\x7b\x7ba\x7d\x7d" [("a", .vStr "x")]).toList = false ∧
    interpolateTemplate evalCondStub
        (interpolateTemplate evalCondStub "\x7b\x7ba\x7d\x7d" [("a", .vStr "x")])
        [("a", .vStr "x")] =
      interpolateTemplate evalCondStub "\x7b\x7ba\x7d\x7d" [("a", .vStr "x")] :=
  ⟨by decide, c10_amended evalCondStub [("a", .vStr "x")] "\x7b\x7ba\x7d\x7d"
    (by decide) (by decide)⟩

/-! Claim C9: the default score is the weighted average. -/

/-- The accumulated total of the weighted-average loop, commuted into the
`Σ wᵢ·nᵢ` form of the specification. -/
theorem sum_mul_comm_weights (weights : List (String × ℚ)) :
    ∀ (values : List (String × ℚ)),
      (values.map fun p => p.2 * lookupWeight weights p.1).sum =
        (values.map fun p => lookupWeight weights p.1 * p.2).sum := by
  intro values
  induction values with
  | nil => rfl
  | cons p rest ih =>
    simp only [List.map_cons, List.sum_cons, ih, mul_comm]

/-- C9 (corrected): with no formula and no normalization the score is the
weighted average `Σ wᵢ·nᵢ / Σ wᵢ` over the checks contributing a numeric
value, provided the total weight is positive; when no check contributes, and
also when the total weight is not positive (reachable through negative
configured weights), the score is 0. -/
theorem c9_amended
    (evalFormula : String → List (String × ℚ) → EnvState → Except String ℚ)
    (scoring : ScoringConfig) (env : EnvState) (checks : List (String × Val))
    (hf : scoring.formula = none) (hn : scoring.normalize = false) :
    (extractCheckValues checks = [] →
      computeScore evalFormula scoring env checks = 0) ∧
    (0 < ((extractCheckValues checks).map fun p => lookupWeight scoring.weights p.1).sum →
      computeScore evalFormula scoring env checks =
        ((extractCheckValues checks).map fun p => lookupWeight scoring.weights p.1 * p.2).sum /
          ((extractCheckValues checks).map fun p => lookupWeight scoring.weights p.1).sum) := by
  unfold computeScore
  rw [hf, hn]
  rw [if_neg (by simp : ¬((false : Bool) = true ∧ scoring.max_score ≠ scoring.min_score))]
  constructor
  · intro hempty
    rw [weightedAverage, if_pos (by simp [hempty])]
  · intro hw
    have hne : ¬(extractCheckValues checks).isEmpty = true := by
      intro he
      rw [List.isEmpty_iff.mp he] at hw
      simp at hw
    rw [weightedAverage, if_neg hne, if_pos hw, sum_mul_comm_weights]

/-- A scoring configuration with a negative weight for the only check. -/
def c9Scoring : ScoringConfig :=
  { formula := none, weights := [("A", -1)], normalize := false }

/-- The single passed check of the C9 counterexample. -/
def c9Checks : List (String × Val) := [("A", .vDict [("passed", .vBool true)])]

/-- C9 counterexample: one check with passed=true (n = 1) and configured
weight -1.  The claimed formula gives `(-1·1)/(-1) = 1`, but _compute_score
returns 0.0 because _weighted_average only divides when the total weight is
positive.  The claim is therefore false at this input. -/
theorem c9_counterexample :
    computeScore evalFormulaStub c9Scoring [] c9Checks = 0 ∧
    ((extractCheckValues c9Checks).map fun p => lookupWeight c9Scoring.weights p.1 * p.2).sum /
        ((extractCheckValues c9Checks).map fun p => lookupWeight c9Scoring.weights p.1).sum = 1 := by
  constructor
  · simp [computeScore, weightedAverage, extractCheckValues, extractNumeric,
      lookupPairs, lookupWeight, c9Scoring, c9Checks]
  · simp [extractCheckValues, extractNumeric, lookupPairs, lookupWeight,
      c9Scoring, c9Checks]

theorem c9_witness :
    (0 : ℚ) <
      ((extractCheckValues [("A", .vDict [("passed", .vBool true)])]).map
        fun p => lookupWeight [] p.1).sum ∧
    computeScore evalFormulaStub { formula := none, weights := [], normalize := false } []
        [("A", .vDict [("passed", .vBool true)])] =
      ((extractCheckValues [("A", .vDict [("passed", .vBool true)])]).map
          fun p => lookupWeight [] p.1 * p.2).sum /
        ((extractCheckValues [("A", .vDict [("passed", .vBool true)])]).map
          fun p => lookupWeight [] p.1).sum :=
  ⟨by simp [extractCheckValues, extractNumeric, lookupPairs, lookupWeight],
   (c9_amended evalFormulaStub
     { formula := none, weights := [], normalize := false } []
     [("A", .vDict [("passed", .vBool true)])] rfl rfl).2
     (by simp [extractCheckValues, extractNumeric, lookupPairs, lookupWeight])⟩

/-! Claim C1: agent stop in the synchronous executor. -/

/-- A module with a scripted user turn, an agent turn, and a further scripted
user turn. -/
def c1Module : ModuleSpec :=
  { id := "c1/stop",
    environment := {},
    steps := [{ id := "s1", action := "inject_user", params := [("content", .vStr "hi")] },
              { id := "s2", action := "await_agent" },
              { id := "s3", action := "inject_user", params := [("content", .vStr "bye")] }] }

/-- C1 counterexample: the agent stops immediately (no tool call yet), so the
claim predicts an agent_stop event followed by the next step (a second user
event for `bye`).  The synchronous runner instead breaks out of the whole
step loop: the run ends with the single `hi` user event — no agent_stop event
and no `bye` event — so the claim is false at this input. -/
theorem c1_counterexample :
    (runSync c1Module stubStopAgent [] pyEvalStub 5).map (fun r => r.events) =
      some [{ type := "user",
              payload := [("content", .vStr "hi"), ("step_id", .vStr "s1")] }] := by
  decide

/-- C1 (corrected): when the agent answers a synchronous await_agent step
with a stop action, the sub-loop returns immediately with the state unchanged
(no synthetic nudge, no retry, no agent_stop event — those exist only in the
asynchronous executor), and Runner.run breaks out of the whole step loop, so
the remaining steps of the sequence are not executed and the run proceeds
straight to evaluation with the state as of the stop. -/
theorem c1_amended (module : ModuleSpec) (agent : Agent)
    (tools : List (String × Tool)) (fuel : Nat) (steps : List Step) (i : Nat)
    (st : RState) (h : i < steps.length)
    (ha : (steps.get ⟨i, h⟩).action = "await_agent")
    (hstop : agent.step st.history (toolSchemas tools) = .stop) :
    runLoopSync module agent tools (fuel + 1) steps i st = some st := by
  have hr : handleAwaitAgentSync agent tools (steps.get ⟨i, h⟩) 10 st = (true, st) := by
    rw [show (10 : Nat) = 9 + 1 from rfl, handleAwaitAgentSync, hstop]
  rw [runLoopSync, dif_pos h]
  rw [if_neg (by rw [ha]; decide), if_pos ha]
  simp only [hr]
  rfl

/-- A one-step module instantiating `c1_amended`. -/
def c1WitnessModule : ModuleSpec :=
  { id := "c1/witness", environment := {},
    steps := [{ id := "s", action := "await_agent" }] }

/-- C1 witness: the amended theorem at a concrete module and the always-stop
agent. -/
theorem c1_witness :
    0 < c1WitnessModule.steps.length ∧
    runLoopSync c1WitnessModule stubStopAgent [] 4 c1WitnessModule.steps 0
        (initRState c1WitnessModule) = some (initRState c1WitnessModule) :=
  ⟨by decide,
   c1_amended c1WitnessModule stubStopAgent [] 3 c1WitnessModule.steps 0
     (initRState c1WitnessModule) (by decide) (by decide) rfl⟩

/-! Claim C2: direct tool_call steps in the synchronous executor. -/

/-- A module whose only step is a direct tool_call on the probe tool. -/
def c2Module : ModuleSpec :=
  { id := "c2/direct",
    environment := {},
    steps := [{ id := "s1", action := "tool_call",
                params := [("tool", .vStr "t"), ("action", .vStr "a"),
                           ("args", .vDict [])] }] }

/-- C2 counterexample: the claim predicts a tool_call event followed by a
tool_result event (with the tool actually invoked).  The synchronous runner
has no handler for tool_call steps: the run emits no event at all and the
probe tool (which would set the env key `hit`) is never invoked, so the claim
is false at this input. -/
theorem c2_counterexample :
    (runSync c2Module stubMessageAgent [("t", probeTool)] pyEvalStub 2).map
        (fun r => r.events) = some [] ∧
    (runLoopSync c2Module stubMessageAgent [("t", probeTool)] 2 c2Module.steps 0
        (initRState c2Module)).map (fun st => st.env_state) = some [] := by
  constructor
  · decide
  · decide

/-- C2 (corrected): a step whose action is tool_call falls through the
if/elif chain of Runner.run — the step is skipped with no events emitted, no
tool invoked, and history, env_state and event log unchanged — and execution
advances to the next step.  Only the asynchronous executor handles direct
tool_call steps. -/
theorem c2_amended (module : ModuleSpec) (agent : Agent)
    (tools : List (String × Tool)) (fuel : Nat) (steps : List Step) (i : Nat)
    (st : RState) (h : i < steps.length)
    (ha : (steps.get ⟨i, h⟩).action = "tool_call") :
    runLoopSync module agent tools (fuel + 1) steps i st =
      runLoopSync module agent tools fuel steps (i + 1) st := by
  rw [runLoopSync, dif_pos h]
  rw [if_neg (by rw [ha]; decide), if_neg (by rw [ha]; decide),
    if_neg (by rw [ha]; decide)]

/-- C2 witness: the amended theorem at the concrete tool_call module. -/
theorem c2_witness :
    0 < c2Module.steps.length ∧
    runLoopSync c2Module stubMessageAgent [("t", probeTool)] 2 c2Module.steps 0
        (initRState c2Module) =
      runLoopSync c2Module stubMessageAgent [("t", probeTool)] 1 c2Module.steps 1
        (initRState c2Module) :=
  ⟨by decide,
   c2_amended c2Module stubMessageAgent [("t", probeTool)] 1 c2Module.steps 0
     (initRState c2Module) (by decide) (by decide)⟩

/-! Claim C4: agent tool calls crash the asynchronous executor. -/

/-- The AttributeError message raised by `action.tool_call_id`. -/
def toolCallIdAttrError : String :=
  "AttributeError: \x27AgentAction\x27 object has no attribute \x27tool_call_id\x27"

/-- The tool-call handler of the asynchronous runner raises on any agent tool
call: it reads `action.tool_call_id`, a field AgentAction does not declare,
before yielding anything or mutating anything. -/
theorem asyncHandleToolCall_raises (tools : List (String × Tool))
    (tn ta : Option String) (targs : Option (List (String × Val))) (step : Step)
    (st : AState) :
    asyncHandleToolCall tools (.toolCall tn ta targs) step st =
      .error toolCallIdAttrError := rfl

/-- C4 (confirmed): whenever the current step is await_agent and the agent
returns a tool_call action, the asynchronous run yields exactly one error
event (no tool_call and no tool_result event for that call, and nothing is
appended to the event log), and the session state becomes error. -/
theorem c4_async_tool_call_error (module : ModuleSpec) (agent : Agent)
    (tools : List (String × Tool))
    (pyEval : String → Val → Except String Val)
    (reSearch : String → String → Bool → Except String Bool)
    (evalFormula : String → List (String × ℚ) → EnvState → Except String ℚ)
    (fuel : Nat) (steps : List Step) (inputs : List String) (st : AState)
    (h : st.idx < steps.length)
    (ha : (steps.get ⟨st.idx, h⟩).action = "await_agent")
    (tn ta : Option String) (targs : Option (List (String × Val)))
    (hag : agent.step st.history (toolSchemas tools) = .toolCall tn ta targs) :
    runLoopAsync module agent tools pyEval reSearch evalFormula (fuel + 1) steps
        inputs st =
      some ([errorEvent toolCallIdAttrError], { st with state := .error }) := by
  have hgo : asyncAwaitAgentGo agent tools (steps.get ⟨st.idx, h⟩) 10 (21 + 1) 0
      { st with state := .awaiting_agent } =
      .error (toolCallIdAttrError, { st with state := .awaiting_agent }) := by
    rw [asyncAwaitAgentGo, if_pos (by decide : (0 : Nat) < 10)]
    dsimp only
    rw [hag]
    rfl
  rw [runLoopAsync, dif_pos h]
  rw [if_neg (by rw [ha]; decide), if_neg (by rw [ha]; decide), if_pos ha]
  rw [show (2 * 10 + 2 : Nat) = 21 + 1 from rfl]
  rw [hgo]

/-- A one-step await_agent module instantiating the C4 theorem. -/
def c4Module : ModuleSpec :=
  { id := "c4/witness", environment := {},
    steps := [{ id := "s", action := "await_agent" }] }

/-- C4 witness: the theorem applied to the concrete always-tool-call agent. -/
theorem c4_witness :
    0 < c4Module.steps.length ∧
    runLoopAsync c4Module stubToolCallAgent [] pyEvalStub reSearchStub
        evalFormulaStub 3 c4Module.steps []
        { initAState c4Module with state := .running } =
      some ([errorEvent toolCallIdAttrError],
            { initAState c4Module with state := .error }) :=
  ⟨by decide,
   c4_async_tool_call_error c4Module stubToolCallAgent [] pyEvalStub reSearchStub
     evalFormulaStub 2 c4Module.steps []
     { initAState c4Module with state := .running } (by decide) (by decide)
     (some "t") (some "a") (some []) rfl⟩

/-! Claim C8: determinism of the synchronous executor across runs.

The claim is false of the program: Runner.__init__ copies the module
initial_state with `dict.copy()`, a shallow copy, so a container stored
inside initial_state is the same object in the ModuleSpec and in every
Runner constructed from it.  A first run that mutates such a container in
place changes what a second fresh Runner reads.  The counterexample uses a
deterministic-check expression whose evaluation (through _safe_eval, which
hands the live env_state to the restricted eval) appends to the shared
list; bundled mock tools reach the same containers through
`env_state.setdefault(...).append(...)`. -/

/-- The mutating check expression of the counterexample: evaluating it
appends 1 to the list shared through the shallow copy and then reports
whether the length is exactly 1. -/
def c8Expr : String :=
  "env_state[\x27log\x27].append(1) or len(env_state[\x27log\x27]) == 1"

/-- The counterexample module: an empty step list and one deterministic
check whose expression mutates initial_state in place. -/
def c8Module : ModuleSpec :=
  { id := "c8/shared",
    environment := { initial_state := [("log", .vList [])] },
    steps := [],
    evaluation := [{ name := "c", kind := "deterministic",
                     config := [("expr", .vStr c8Expr)] }] }

/-- The top-level mapping of the module initial_state: the key `log` refers
to the shared list object, held as heap cell 0. -/
def c8Initial : HEnv := [("log", .ref 0)]

/-- The heap as the ModuleSpec is loaded: the shared list is empty. -/
def c8Heap : Heap := [.vList []]

/-- The foreign `_safe_eval` instantiated at the single expression `c8Expr`,
modelled by its effect on the live state: the list behind cell 0 grows by
one element and the returned boolean reflects the length after the append
(`list.append` returns None, which is falsy, so `or` evaluates its right
operand after the append). -/
def c8PyEval : String → Val → Heap → Except String Val × Heap := fun e _ heap =>
  if e = c8Expr then
    match heap with
    | [.vList items] =>
      (.ok (.vBool (items.length + 1 == 1)), [.vList (items ++ [.vNum 1])])
    | _ => (.error "eval stub", heap)
  else (.error "eval stub", heap)

/-- Two Runner instances constructed in sequence from the same ModuleSpec:
each run copies the same top-level mapping (`c8Initial`), while the heap -
the current contents of the shared list - persists from the first run into
the second, exactly as the shared object does in the source. -/
def c8TwoRuns : Option (RunResult × RunResult) :=
  match runSyncH c8Module stubStopAgent [] c8PyEval 1 c8Initial c8Heap with
  | some r1 =>
    match runSyncH c8Module stubStopAgent [] c8PyEval 1 c8Initial r1.2 with
    | some r2 => some (r1.1, r2.1)
    | none => none
  | none => none

/-- A successful tool lookup returns one of the tools of the mapping. -/
theorem lookupToolH_mem :
    ∀ (ts : List (String × HTool)) (n : String) (t : HTool),
      lookupToolH ts n = some t → ∃ k, (k, t) ∈ ts := by
  intro ts
  induction ts with
  | nil => intro n t h; simp [lookupToolH] at h
  | cons p rest ih =>
    obtain ⟨k0, v0⟩ := p
    intro n t h
    rw [lookupToolH] at h
    split at h
    · cases h
      exact ⟨k0, List.mem_cons_self _ _⟩
    · obtain ⟨k, hk⟩ := ih n t h
      exact ⟨k, List.mem_cons_of_mem _ hk⟩

/-- With heap-preserving tools, a tool-call step leaves the heap unchanged. -/
theorem handleToolCallSyncH_heap (tools : List (String × HTool))
    (htools : ∀ p ∈ tools, heapPreservingTool p.2)
    (action : AgentAction) (step : Step) (st : HRState) (heap : Heap) :
    (handleToolCallSyncH tools action step st heap).2 = heap := by
  dsimp only [handleToolCallSyncH]
  cases hl : lookupToolH tools (action.toolNameField.getD "") with
  | none => rfl
  | some t =>
    obtain ⟨k, hk⟩ := lookupToolH_mem tools _ t hl
    exact htools (k, t) hk _ _ _ _

/-- With heap-preserving tools, the agent sub-loop leaves the heap
unchanged. -/
theorem handleAwaitAgentSyncH_heap (agent : Agent)
    (tools : List (String × HTool))
    (htools : ∀ p ∈ tools, heapPreservingTool p.2) (step : Step) :
    ∀ (budget : Nat) (st : HRState) (heap : Heap),
      (handleAwaitAgentSyncH agent tools step budget st heap).2.2 = heap := by
  intro budget
  induction budget with
  | zero => intro st heap; rfl
  | succ n ih =>
    intro st heap
    rw [handleAwaitAgentSyncH]
    cases agent.step st.history (toolSchemasH tools) with
    | message c => rfl
    | toolCall tn ta targs =>
      dsimp only
      rw [ih]
      exact handleToolCallSyncH_heap tools htools _ step st heap
    | stop => rfl

/-- With heap-preserving tools, a completed step loop leaves the heap
unchanged. -/
theorem runLoopSyncH_heap (module : ModuleSpec) (agent : Agent)
    (tools : List (String × HTool))
    (htools : ∀ p ∈ tools, heapPreservingTool p.2) :
    ∀ (fuel : Nat) (steps : List Step) (i : Nat) (st : HRState) (heap : Heap)
      (fin : HRState) (heap2 : Heap),
      runLoopSyncH module agent tools fuel steps i st heap = some (fin, heap2) →
      heap2 = heap := by
  intro fuel
  induction fuel with
  | zero =>
    intro steps i st heap fin heap2 h
    rw [runLoopSyncH] at h
    exact absurd h (by simp)
  | succ n ih =>
    intro steps i st heap fin heap2 h
    rw [runLoopSyncH] at h
    by_cases hi : i < steps.length
    · rw [dif_pos hi] at h
      dsimp only at h
      by_cases ha1 : (steps.get ⟨i, hi⟩).action = "inject_user"
      · rw [if_pos ha1] at h
        exact ih _ _ _ _ _ _ h
      · rw [if_neg ha1] at h
        by_cases ha2 : (steps.get ⟨i, hi⟩).action = "await_agent"
        · rw [if_pos ha2] at h
          by_cases hstop :
              (handleAwaitAgentSyncH agent tools (steps.get ⟨i, hi⟩) 10 st heap).1 = true
          · rw [if_pos hstop] at h
            injection h with h1
            have h2 := congrArg Prod.snd h1
            rw [handleAwaitAgentSyncH_heap agent tools htools
              (steps.get ⟨i, hi⟩) 10 st heap] at h2
            exact h2.symm
          · rw [if_neg hstop] at h
            have h3 := ih _ _ _ _ _ _ h
            rw [handleAwaitAgentSyncH_heap agent tools htools
              (steps.get ⟨i, hi⟩) 10 st heap] at h3
            exact h3
        · rw [if_neg ha2] at h
          by_cases ha3 : (steps.get ⟨i, hi⟩).action = "branch"
          · rw [if_pos ha3] at h
            cases ht : (handleBranchSyncH module (steps.get ⟨i, hi⟩) st).2 with
            | some ns =>
              rw [ht] at h
              exact ih _ _ _ _ _ _ h
            | none =>
              rw [ht] at h
              exact ih _ _ _ _ _ _ h
          · rw [if_neg ha3] at h
            exact ih _ _ _ _ _ _ h
    · rw [dif_neg hi] at h
      cases h
      rfl

/-- With a heap-preserving evaluator, a deterministic check leaves the heap
unchanged. -/
theorem evalDeterministicSyncH_heap
    (pe : String → Val → Heap → Except String Val × Heap)
    (hpe : heapPreservingEval pe)
    (check : EvaluationCheck) (st : HRState) (heap : Heap) :
    (evalDeterministicSyncH pe check st heap).2 = heap := by
  unfold evalDeterministicSyncH
  by_cases hc :
      (pyFalsy ((lookupPairs check.config "expr").getD (.vStr "")) ||
        valBeq ((lookupPairs check.config "expr").getD (.vStr "")) (.vStr "TODO")) = true
  · rw [if_pos hc]
  · rw [if_neg hc]
    cases hexpr : (lookupPairs check.config "expr").getD (.vStr "") with
    | vStr e => exact hpe e _ heap
    | vNum q => rfl
    | vBool b => rfl
    | vNull => rfl
    | vList l => rfl
    | vDict d => rfl

/-- With a heap-preserving evaluator, the check loop leaves the heap
unchanged. -/
theorem evaluateSyncGoH_heap
    (pe : String → Val → Heap → Except String Val × Heap)
    (hpe : heapPreservingEval pe) (st : HRState) :
    ∀ (cs : List EvaluationCheck) (checks : List (String × Val)) (total : ℚ)
      (num : Nat) (heap : Heap),
      (evaluateSyncGoH pe st cs checks total num heap).2.2.2 = heap := by
  intro cs
  induction cs with
  | nil => intro checks total num heap; rfl
  | cons c rest ih =>
    intro checks total num heap
    rw [evaluateSyncGoH]
    by_cases h1 : c.kind = "deterministic"
    · rw [if_pos h1]
      dsimp only
      cases hr : (evalDeterministicSyncH pe c st heap).1 with
      | vStr s =>
        rw [ih]
        exact evalDeterministicSyncH_heap pe hpe c st heap
      | vNum q =>
        rw [ih]
        exact evalDeterministicSyncH_heap pe hpe c st heap
      | vBool b =>
        rw [ih]
        exact evalDeterministicSyncH_heap pe hpe c st heap
      | vNull =>
        rw [ih]
        exact evalDeterministicSyncH_heap pe hpe c st heap
      | vList l =>
        rw [ih]
        exact evalDeterministicSyncH_heap pe hpe c st heap
      | vDict d =>
        rw [ih]
        exact evalDeterministicSyncH_heap pe hpe c st heap
    · rw [if_neg h1]
      by_cases h2 : c.kind = "llm"
      · rw [if_pos h2]
        exact ih _ _ _ _
      · rw [if_neg h2]
        exact ih _ _ _ _

/-- With a heap-preserving evaluator, Runner._evaluate leaves the heap
unchanged. -/
theorem evaluateSyncH_heap
    (pe : String → Val → Heap → Except String Val × Heap)
    (hpe : heapPreservingEval pe)
    (evaluation : List EvaluationCheck) (st : HRState) (heap : Heap) :
    (evaluateSyncH pe evaluation st heap).2 = heap := by
  unfold evaluateSyncH
  exact evaluateSyncGoH_heap pe hpe st evaluation [] 0 0 heap

/-- With heap-preserving tools and evaluator, a completed run leaves the heap
unchanged. -/
theorem runSyncH_heap (module : ModuleSpec) (agent : Agent)
    (tools : List (String × HTool))
    (pe : String → Val → Heap → Except String Val × Heap)
    (htools : ∀ p ∈ tools, heapPreservingTool p.2)
    (hpe : heapPreservingEval pe)
    (fuel : Nat) (initial : HEnv) (heap : Heap) (r : RunResult) (heap2 : Heap)
    (h : runSyncH module agent tools pe fuel initial heap = some (r, heap2)) :
    heap2 = heap := by
  unfold runSyncH at h
  cases hl : runLoopSyncH module agent tools fuel module.steps 0
      (initHRState initial) heap with
  | none =>
    rw [hl] at h
    exact absurd h (by simp)
  | some q =>
    obtain ⟨st1, h1⟩ := q
    rw [hl] at h
    simp only [Option.map_some] at h
    have hheap2 : heap2 = (evaluateSyncH pe module.evaluation st1 h1).2 :=
      (congrArg Prod.snd (Option.some.inj h)).symm
    rw [evaluateSyncH_heap pe hpe module.evaluation st1 h1] at hheap2
    rw [hheap2]
    exact runLoopSyncH_heap module agent tools htools fuel module.steps 0
      (initHRState initial) heap st1 h1 hl

/-- C8 counterexample: with the shared list behind `log` (heap cell 0, the
heap representation of the module initial_state), two sequential fresh
Runner constructions and runs produce the same (empty) events but different
evaluations: the first run scores the check True and leaves the shared list
as [1]; the second run, started from the same ModuleSpec, evaluates the same
check False. -/
theorem c8_counterexample :
    resolveHEnv c8Heap c8Initial = c8Module.environment.initial_state ∧
    c8TwoRuns.map (fun p => p.1.events) = c8TwoRuns.map (fun p => p.2.events) ∧
    c8TwoRuns.map (fun p => p.1.evaluation.checks) = some [("c", .vBool true)] ∧
    c8TwoRuns.map (fun p => p.2.evaluation.checks) = some [("c", .vBool false)] ∧
    c8TwoRuns.map (fun p => p.1.evaluation) ≠
      c8TwoRuns.map (fun p => p.2.evaluation) := by
  have h1 : c8TwoRuns.map (fun p => p.1.evaluation.checks) =
      some [("c", Val.vBool true)] := by decide
  have h2 : c8TwoRuns.map (fun p => p.2.evaluation.checks) =
      some [("c", Val.vBool false)] := by decide
  refine ⟨by decide, by decide, h1, h2, ?_⟩
  intro h
  have h3 := congrArg (fun o => Option.map EvaluationResult.checks o) h
  simp only [Option.map_map] at h3
  have e1 : EvaluationResult.checks ∘ (fun p : RunResult × RunResult => p.1.evaluation) =
      fun p : RunResult × RunResult => p.1.evaluation.checks := rfl
  have e2 : EvaluationResult.checks ∘ (fun p : RunResult × RunResult => p.2.evaluation) =
      fun p : RunResult × RunResult => p.2.evaluation.checks := rfl
  rw [e1, e2, h1, h2] at h3
  exact absurd h3 (by decide)

/-- C8 amended: two fresh Runner instances constructed in sequence from the
same ModuleSpec produce identical events and evaluation provided neither
tools nor deterministic-check expressions mutate a shared container in place
(rebinding top-level env_state keys is harmless, because the shallow copy
duplicates the top-level mapping per Runner).  Run 1 then leaves the heap as
it found it, so run 2 is the same computation on the same state. -/
theorem c8_amended (module : ModuleSpec) (agent : Agent)
    (tools : List (String × HTool))
    (pe : String → Val → Heap → Except String Val × Heap) (fuel : Nat)
    (initial : HEnv) (heap : Heap)
    (htools : ∀ p ∈ tools, heapPreservingTool p.2)
    (hpe : heapPreservingEval pe) :
    runSyncH module agent tools pe fuel initial
        (heapAfterRunSync module agent tools pe fuel initial heap) =
      runSyncH module agent tools pe fuel initial heap := by
  unfold heapAfterRunSync
  cases hr : runSyncH module agent tools pe fuel initial heap with
  | none =>
    dsimp only
    exact hr
  | some q =>
    obtain ⟨r, heap1⟩ := q
    dsimp only
    have hh := runSyncH_heap module agent tools pe htools hpe fuel initial heap r heap1 hr
    subst hh
    exact hr

/-- A heap-preserving stand-in for the expression evaluator. -/
def pyEvalHStub : String → Val → Heap → Except String Val × Heap :=
  fun _ _ heap => (.error "eval stub", heap)

/-- C8 witness: the amended theorem applied at the concrete module with no
tools and the non-mutating evaluator. -/
theorem c8_witness :
    heapPreservingEval pyEvalHStub ∧
    runSyncH c8Module stubStopAgent [] pyEvalHStub 1 c8Initial
        (heapAfterRunSync c8Module stubStopAgent [] pyEvalHStub 1 c8Initial c8Heap) =
      runSyncH c8Module stubStopAgent [] pyEvalHStub 1 c8Initial c8Heap :=
  ⟨fun _ _ _ => rfl,
   c8_amended c8Module stubStopAgent [] pyEvalHStub 1 c8Initial c8Heap
     (by simp) (fun _ _ _ => rfl)⟩

/-! Claim C3: env_state agreement between the two executors. -/

/-- The step actions handled by both executors with matching state effects. -/
def sharedStep (s : Step) : Prop :=
  s.action = "inject_user" ∨ s.action = "await_agent" ∨ s.action = "branch"

instance (s : Step) : Decidable (sharedStep s) := by
  unfold sharedStep
  infer_instance

/-- An agent that only ever answers with messages (no tool calls, no stop). -/
def messageOnly (agent : Agent) : Prop :=
  ∀ (h : List Message) (ts : List Val), ∃ c, agent.step h ts = .message c

/-- A successful branch lookup returns one of the branch lists of the
module. -/
theorem lookupBranch_mem :
    ∀ (brs : List (String × List Step)) (b : String) (l : List Step),
      lookupBranch brs b = some l → ∃ k, (k, l) ∈ brs := by
  intro brs
  induction brs with
  | nil => intro b l h; simp [lookupBranch] at h
  | cons p rest ih =>
    obtain ⟨k0, v0⟩ := p
    intro b l h
    rw [lookupBranch] at h
    split at h
    · cases h
      exact ⟨k0, List.mem_cons_self _ _⟩
    · obtain ⟨k, hk⟩ := ih b l h
      exact ⟨k, List.mem_cons_of_mem _ hk⟩

/-- The branch event of both executors. -/
def branchEvent (step : Step) : RunEvent :=
  { type := "branch",
    payload := [("branch", (lookupPairs step.params "branch_name").getD .vNull),
                ("step_id", .vStr step.id)] }

/-- The jump decision both executors make on a branch step. -/
def branchTarget (module : ModuleSpec) (step : Step) : Option (List Step) :=
  match lookupPairs step.params "branch_name" with
  | some (.vStr b) => if b ≠ "" then lookupBranch module.branches b else none
  | _ => none

/-- Runner._handle_branch in equational form. -/
theorem handleBranchSync_eq (module : ModuleSpec) (step : Step) (stS : RState) :
    handleBranchSync module step stS =
      ({ stS with events := stS.events ++ [branchEvent step] },
       branchTarget module step) := by
  unfold handleBranchSync branchTarget branchEvent
  cases hb : lookupPairs step.params "branch_name" with
  | none => rfl
  | some v =>
    cases v with
    | vStr b =>
      dsimp only
      by_cases hbe : b ≠ ""
      · rw [if_pos hbe, if_pos hbe]
        cases lookupBranch module.branches b <;> rfl
      · rw [if_neg hbe, if_neg hbe]
    | vNum q => rfl
    | vBool x => rfl
    | vNull => rfl
    | vList l => rfl
    | vDict d => rfl

/-- AsyncRunner._handle_branch in equational form. -/
theorem asyncBranch_eq (module : ModuleSpec) (step : Step) (stA : AState) :
    asyncBranch module step stA =
      (branchEvent step,
       { stA with events := stA.events ++ [branchEvent step] },
       branchTarget module step) := by
  unfold asyncBranch branchTarget branchEvent
  cases hb : lookupPairs step.params "branch_name" with
  | none => rfl
  | some v =>
    cases v with
    | vStr b =>
      dsimp only
      by_cases hbe : b ≠ ""
      · rw [if_pos hbe, if_pos hbe]
        cases lookupBranch module.branches b <;> rfl
      · rw [if_neg hbe, if_neg hbe]
    | vNum q => rfl
    | vBool x => rfl
    | vNull => rfl
    | vList l => rfl
    | vDict d => rfl

/-- Lockstep simulation: on step sequences using only the shared actions,
with an agent that only produces messages, the asynchronous loop terminates
whenever the synchronous loop does, with the same final history and the same
final env_state. -/
theorem runLoop_lockstep (module : ModuleSpec) (agent : Agent)
    (tools : List (String × Tool))
    (pyEval : String → Val → Except String Val)
    (reSearch : String → String → Bool → Except String Bool)
    (evalFormula : String → List (String × ℚ) → EnvState → Except String ℚ)
    (hbr : ∀ p ∈ module.branches, ∀ s ∈ p.2, sharedStep s)
    (hagent : messageOnly agent) :
    ∀ (fuel : Nat) (steps : List Step), (∀ s ∈ steps, sharedStep s) →
      ∀ (i : Nat) (stS : RState) (stA : AState) (inputs : List String),
        stA.history = stS.history → stA.env_state = stS.env_state → stA.idx = i →
        ∀ out, runLoopSync module agent tools fuel steps i stS = some out →
          ∃ evs fin,
            runLoopAsync module agent tools pyEval reSearch evalFormula fuel steps
                inputs stA = some (evs, fin) ∧
              fin.history = out.history ∧ fin.env_state = out.env_state := by
  intro fuel
  induction fuel with
  | zero =>
    intro steps _ i stS stA inputs _ _ _ out hrun
    exact absurd hrun (by simp [runLoopSync])
  | succ n ih =>
    intro steps hsteps i stS stA inputs hhist henv hidx out hrun
    subst hidx
    rw [runLoopSync] at hrun
    rw [runLoopAsync]
    by_cases h : stA.idx < steps.length
    · rw [dif_pos h] at hrun
      rw [dif_pos h]
      rcases hsteps (steps.get ⟨stA.idx, h⟩) (steps.get_mem _ _) with ha | ha | ha
      · -- inject_user
        rw [if_pos ha] at hrun
        rw [if_pos ha]
        dsimp only [asyncInjectUser]
        obtain ⟨evs, fin, hrec, hh, he⟩ :=
          ih steps hsteps (stA.idx + 1)
            (handleInjectUser (steps.get ⟨stA.idx, h⟩) stS)
            { events := stA.events ++
                [{ type := "user",
                   payload := [("content",
                       .vStr (paramStr (steps.get ⟨stA.idx, h⟩).params "content")),
                     ("step_id", .vStr (steps.get ⟨stA.idx, h⟩).id),
                     ("scripted", .vBool true)] }],
              history := stA.history ++
                [{ role := "user",
                   content := paramStr (steps.get ⟨stA.idx, h⟩).params "content" }],
              env_state := stA.env_state, state := stA.state, idx := stA.idx + 1,
              retry_after_tool := stA.retry_after_tool }
            inputs
            (by simp [handleInjectUser, hhist])
            (by simp [handleInjectUser, henv])
            rfl out hrun
        exact ⟨{ type := "user",
                 payload := [("content",
                     .vStr (paramStr (steps.get ⟨stA.idx, h⟩).params "content")),
                   ("step_id", .vStr (steps.get ⟨stA.idx, h⟩).id),
                   ("scripted", .vBool true)] } :: evs, fin, by rw [hrec]; rfl, hh, he⟩
      · -- await_agent
        rw [if_neg (by rw [ha]; decide), if_pos ha] at hrun
        rw [if_neg (by rw [ha]; decide), if_neg (by rw [ha]; decide), if_pos ha]
        obtain ⟨c, hc⟩ := hagent stS.history (toolSchemas tools)
        have hsync : handleAwaitAgentSync agent tools (steps.get ⟨stA.idx, h⟩) 10 stS =
            (false,
              { stS with
                history := stS.history ++ [{ role := "assistant", content := c.getD "" }],
                events := stS.events ++
                  [{ type := "agent",
                     payload := [("content", .vStr (c.getD "")),
                                 ("step_id", .vStr (steps.get ⟨stA.idx, h⟩).id)] }] }) := by
          rw [show (10 : Nat) = 9 + 1 from rfl, handleAwaitAgentSync, hc]
        rw [hsync] at hrun
        dsimp only at hrun
        rw [if_neg (by decide : ¬((false : Bool) = true))] at hrun
        have hasync : asyncAwaitAgentGo agent tools (steps.get ⟨stA.idx, h⟩) 10 (21 + 1) 0
            { stA with state := .awaiting_agent } =
            .ok
              ({ events := stA.events ++
                   [{ type := "agent",
                      payload := [("content", .vStr (c.getD "")),
                                  ("step_id", .vStr (steps.get ⟨stA.idx, h⟩).id)] }],
                 history := stA.history ++ [{ role := "assistant", content := c.getD "" }],
                 env_state := stA.env_state, state := .awaiting_agent, idx := stA.idx,
                 retry_after_tool := stA.retry_after_tool },
               [{ type := "agent",
                  payload := [("content", .vStr (c.getD "")),
                              ("step_id", .vStr (steps.get ⟨stA.idx, h⟩).id)] }]) := by
          rw [asyncAwaitAgentGo, if_pos (by decide : (0 : Nat) < 10)]
          dsimp only
          rw [hhist, hc]
        rw [show (2 * 10 + 2 : Nat) = 21 + 1 from rfl, hasync]
        dsimp only
        obtain ⟨evs, fin, hrec, hh, he⟩ :=
          ih steps hsteps (stA.idx + 1) _
            { events := stA.events ++
                [{ type := "agent",
                   payload := [("content", .vStr (c.getD "")),
                               ("step_id", .vStr (steps.get ⟨stA.idx, h⟩).id)] }],
              history := stA.history ++ [{ role := "assistant", content := c.getD "" }],
              env_state := stA.env_state, state := .running, idx := stA.idx + 1,
              retry_after_tool := stA.retry_after_tool }
            inputs
            (by dsimp only; rw [hhist])
            (by dsimp only; rw [henv])
            rfl out hrun
        exact ⟨[{ type := "agent",
                  payload := [("content", .vStr (c.getD "")),
                              ("step_id", .vStr (steps.get ⟨stA.idx, h⟩).id)] }] ++ evs,
          fin, by rw [hrec]; rfl, hh, he⟩
      · -- branch
        rw [if_neg (by rw [ha]; decide), if_neg (by rw [ha]; decide), if_pos ha] at hrun
        rw [if_neg (by rw [ha]; decide), if_neg (by rw [ha]; decide),
          if_neg (by rw [ha]; decide), if_pos ha]
        rw [handleBranchSync_eq] at hrun
        rw [asyncBranch_eq]
        dsimp only at hrun ⊢
        cases ht : branchTarget module (steps.get ⟨stA.idx, h⟩) with
        | some newSteps =>
          rw [ht] at hrun
          dsimp only at hrun ⊢
          have hnew : ∀ s ∈ newSteps, sharedStep s := by
            have : ∃ k, (k, newSteps) ∈ module.branches := by
              rw [branchTarget] at ht
              split at ht
              · split at ht
                · exact lookupBranch_mem module.branches _ newSteps ht
                · exact absurd ht (by simp)
              · exact absurd ht (by simp)
            obtain ⟨k, hk⟩ := this
            exact hbr (k, newSteps) hk
          obtain ⟨evs, fin, hrec, hh, he⟩ :=
            ih newSteps hnew 0 _
              { events := stA.events ++ [branchEvent (steps.get ⟨stA.idx, h⟩)],
                history := stA.history, env_state := stA.env_state, state := stA.state,
                idx := 0, retry_after_tool := stA.retry_after_tool }
              inputs (by dsimp only; rw [hhist]) (by dsimp only; rw [henv])
              rfl out hrun
          exact ⟨branchEvent (steps.get ⟨stA.idx, h⟩) :: evs, fin,
            by rw [hrec]; rfl, hh, he⟩
        | none =>
          rw [ht] at hrun
          dsimp only at hrun ⊢
          obtain ⟨evs, fin, hrec, hh, he⟩ :=
            ih steps hsteps (stA.idx + 1) _
              { events := stA.events ++ [branchEvent (steps.get ⟨stA.idx, h⟩)],
                history := stA.history, env_state := stA.env_state, state := stA.state,
                idx := stA.idx + 1, retry_after_tool := stA.retry_after_tool }
              inputs (by dsimp only; rw [hhist]) (by dsimp only; rw [henv])
              rfl out hrun
          exact ⟨branchEvent (steps.get ⟨stA.idx, h⟩) :: evs, fin,
            by rw [hrec]; rfl, hh, he⟩
    · rw [dif_neg h] at hrun
      rw [dif_neg h]
      obtain rfl := Option.some.injEq _ _ |>.mp hrun
      exact ⟨_, _, rfl, hhist, henv⟩

/-- C3 counterexample: a module whose single step is a direct tool_call on
the probe tool.  The synchronous run skips the step (Runner.run has no
tool_call handler) and ends with the initial env_state; the interactive run
executes the tool, which sets the env key `hit`.  The two final env_state
mappings differ, so the claim is false at this input. -/
theorem c3_counterexample :
    (runLoopSync c2Module stubMessageAgent [("t", probeTool)] 2 c2Module.steps 0
        (initRState c2Module)).map (fun st => st.env_state) = some [] ∧
    (runAsync c2Module stubMessageAgent [("t", probeTool)] pyEvalStub reSearchStub
        evalFormulaStub 2 []).map (fun o => o.2.env_state) =
      some [("hit", .vBool true)] ∧
    (runLoopSync c2Module stubMessageAgent [("t", probeTool)] 2 c2Module.steps 0
        (initRState c2Module)).map (fun st => st.env_state) ≠
      (runAsync c2Module stubMessageAgent [("t", probeTool)] pyEvalStub reSearchStub
        evalFormulaStub 2 []).map (fun o => o.2.env_state) := by
  refine ⟨by decide, by decide, ?_⟩
  decide

/-- C3 (corrected): the final env_state of a synchronous run equals the final
env_state of an interactive run of the same bound module with the same agent,
provided every step (top-level and in every branch) uses only the actions the
two executors handle identically (inject_user, await_agent, branch) and the
agent answers only with messages.  Outside these restrictions the two
executors genuinely diverge: direct tool_call steps run only in the
interactive executor, agent tool calls crash it, stops halt only the
synchronous run, and await_user is ignored by the synchronous runner. -/
theorem c3_amended (module : ModuleSpec) (agent : Agent)
    (tools : List (String × Tool))
    (pyEval : String → Val → Except String Val)
    (reSearch : String → String → Bool → Except String Bool)
    (evalFormula : String → List (String × ℚ) → EnvState → Except String ℚ)
    (fuel : Nat) (inputs : List String) (out : RState)
    (hsteps : ∀ s ∈ module.steps, sharedStep s)
    (hbr : ∀ p ∈ module.branches, ∀ s ∈ p.2, sharedStep s)
    (hagent : messageOnly agent)
    (hrun : runLoopSync module agent tools fuel module.steps 0 (initRState module)
      = some out) :
    ∃ evs fin,
      runAsync module agent tools pyEval reSearch evalFormula fuel inputs =
        some (evs, fin) ∧
      fin.env_state = out.env_state := by
  obtain ⟨evs, fin, hrec, _, he⟩ :=
    runLoop_lockstep module agent tools pyEval reSearch evalFormula hbr hagent fuel
      module.steps hsteps 0 (initRState module)
      { initAState module with state := .running } inputs rfl rfl rfl out hrun
  exact ⟨evs, fin, hrec, he⟩

/-- C3 witness: the amended theorem at a single await_agent step with the
stub message agent. -/
theorem c3_witness :
    (∀ s ∈ c4Module.steps, sharedStep s) ∧
    (∃ evs fin,
      runAsync c4Module stubMessageAgent [] pyEvalStub reSearchStub evalFormulaStub
          2 [] = some (evs, fin) ∧
      fin.env_state =
        RState.env_state
          { events := [{ type := "agent",
                         payload := [("content", .vStr "ok"), ("step_id", .vStr "s")] }],
            history := [{ role := "assistant", content := "ok" }],
            env_state := [] }) :=
  ⟨by decide,
   c3_amended c4Module stubMessageAgent [] pyEvalStub reSearchStub evalFormulaStub 2 []
     { events := [{ type := "agent",
                    payload := [("content", .vStr "ok"), ("step_id", .vStr "s")] }],
       history := [{ role := "assistant", content := "ok" }],
       env_state := [] }
     (by decide) (by decide) (fun _ _ => ⟨some "ok", rfl⟩) (by decide)⟩

end Sandboxy
